import Mathlib

/-!
Verification of the Trestle ETL pipeline core (OData client retry and
pagination, field normalization and type coercion, incremental sync
coordinator) against its natural-language specification.

The Python sources are shallowly embedded: every function is translated
into an executable Lean definition over explicit data (HTTP exchanges are
lists of responses, Python dicts are association lists, Python numbers are
Int / Rat, datetimes are a record of calendar fields).  The claims are then
proved or refuted about these definitions.
-/

namespace TrestleETL

/-! ## Generic helpers -/

/-- Substring containment, modelling Python's `needle in haystack` on strings. -/
def listHasInfix (needle : List Char) : List Char → Bool
  | [] => needle.isEmpty
  | c :: rest => needle.isPrefixOf (c :: rest) || listHasInfix needle rest

/-- Python `needle in haystack` for `String`. -/
def containsSubstr (haystack needle : String) : Bool :=
  listHasInfix needle.toList haystack.toList

/-! ## OData client (`odata_client.py`)

The HTTP layer is modelled by the responses the server would deliver: one
`HttpResponse` per GET issued by the client.  A successful JSON body is the
already-parsed document (`jsonBody = some doc`); an unparseable body is
`jsonBody = none`.  The quota bookkeeping of `_execute_with_retry`
(lines 360-362, which copies quota headers into `self._quota_info`) has no
effect on control flow, attempts or outcomes and is not represented. -/

structure HttpResponse (α : Type) where
  status : Nat
  text : String
  jsonBody : Option α
deriving Repr, DecidableEq

/-- Errors surfaced by the client's query path (`ODataError` carries its
message; `RateLimitError` likewise). -/
inductive FetchError where
  | odataError (msg : String)
  | rateLimitError (msg : String)
deriving Repr, DecidableEq

/-- `ODataClient._execute_request_once` (odata_client.py lines 391-447):
classify one HTTP exchange.  `resp` is the response to the GET; `retry401`
is the response to the single re-authenticated GET issued when `resp` is a
401.  Error strings mirror the Python messages (the text of a wrapped
`JSONDecodeError` is elided). -/
def execute_request_once {α : Type} (url : String) (resp retry401 : HttpResponse α) :
    Except String α :=
  if resp.status = 200 then
    match resp.jsonBody with
    | some d => Except.ok d
    | none => Except.error "Invalid JSON response"
  else if resp.status = 401 then
    if retry401.status = 200 then
      match retry401.jsonBody with
      | some d => Except.ok d
      | none => Except.error "Invalid JSON response after retry"
    else Except.error ("Authentication failed after retry: " ++ toString retry401.status)
  else if resp.status = 400 then
    Except.error ("Bad request: " ++ resp.text)
  else if resp.status = 404 then
    Except.error ("Resource not found (404): " ++ url)
  else if resp.status = 429 then
    Except.error ("Rate limit exceeded: " ++ resp.text)
  else
    Except.error ("Request failed: " ++ toString resp.status ++ " - " ++ resp.text)

/-- The retry-eligibility test of `_execute_with_retry` (line 370):
`"Rate limit exceeded" in str(e) or "429" in str(e)`. -/
def isRateLimitMessage (msg : String) : Bool :=
  containsSubstr msg "Rate limit exceeded" || containsSubstr msg "429"

/-- Observable result of `_execute_with_retry`: the outcome, the number of
loop attempts made (calls of `_execute_request_once`), and the number of
backoff sleeps taken between attempts. -/
structure RetryTrace (α : Type) where
  outcome : Except FetchError α
  attempts : Nat
  sleeps : Nat
deriving Repr

/-- Loop body of `_execute_with_retry` (lines 355-383).  `server k` gives
the pair (response, 401-retry response) the server delivers on loop
attempt `k`.  `fuel` counts the remaining iterations of
`for attempt in range(max_retries + 1)`; the `fuel = 0` case corresponds to
the unreachable fall-through after the loop (lines 385-389). -/
def execute_with_retry_go {α : Type} (server : Nat → HttpResponse α × HttpResponse α)
    (url : String) (maxRetries : Nat) (attempt : Nat) : Nat → RetryTrace α
  | 0 => ⟨Except.error (FetchError.odataError "Request failed after retries"), 0, 0⟩
  | fuel + 1 =>
    match execute_request_once url (server attempt).1 (server attempt).2 with
    | Except.ok d => ⟨Except.ok d, 1, 0⟩
    | Except.error msg =>
      if isRateLimitMessage msg then
        if attempt < maxRetries then
          let rest := execute_with_retry_go server url maxRetries (attempt + 1) fuel
          ⟨rest.outcome, rest.attempts + 1, rest.sleeps + 1⟩
        else
          ⟨Except.error (FetchError.rateLimitError
            ("Rate limit exceeded after " ++ toString maxRetries ++ " retries: " ++ msg)),
           1, 0⟩
      else
        ⟨Except.error (FetchError.odataError msg), 1, 0⟩

/-- `ODataClient._execute_with_retry` (odata_client.py lines 339-389). -/
def execute_with_retry {α : Type} (server : Nat → HttpResponse α × HttpResponse α)
    (url : String) (maxRetries : Nat) : RetryTrace α :=
  execute_with_retry_go server url maxRetries 0 (maxRetries + 1)

/-! ### Pagination -/

/-- One parsed page of an OData response: the optional `value` array and
whether an `@odata.nextLink` key is present (the link text itself only
serves to fetch the next response, which the model supplies directly). -/
structure ODataResponse (α : Type) where
  value : Option (List α)
  nextLink : Bool
deriving Repr, DecidableEq

/-- `response['value']` if present, else nothing is accumulated. -/
def pageRecords {α : Type} (p : ODataResponse α) : List α :=
  p.value.getD []

/-- The `max_pages` guard of `execute_paginated_query` (line 518):
`max_pages is not None and page_count >= max_pages`. -/
def maxPagesReached (maxPages : Option Nat) (pageCount : Nat) : Bool :=
  match maxPages with
  | some m => pageCount ≥ m
  | none => false

/-- The `while '@odata.nextLink' in response` loop of
`execute_paginated_query` (lines 516-528).  `cur` is the response most
recently processed, `rest` the responses the server would deliver to the
successive next-link fetches. -/
def paginate_while {α : Type} (cur : ODataResponse α) (rest : List (ODataResponse α))
    (acc : List α) (pageCount : Nat) (maxPages : Option Nat) : List α :=
  if cur.nextLink then
    if maxPagesReached maxPages pageCount then acc
    else
      match rest with
      | [] => acc
      | p :: rest2 => paginate_while p rest2 (acc ++ pageRecords p) (pageCount + 1) maxPages
  else acc

/-- `ODataClient.execute_paginated_query` (odata_client.py lines 464-530),
given the first response and the stream of responses to subsequent
next-link fetches. -/
def execute_paginated_query {α : Type} (first : ODataResponse α)
    (rest : List (ODataResponse α)) (maxPages : Option Nat) : List α :=
  paginate_while first rest (pageRecords first) 1 maxPages

/-- A well-formed paginated exchange: every response followed by another
page carries a next link, and the final response does not. -/
def respChain {α : Type} : ODataResponse α → List (ODataResponse α) → Bool
  | cur, [] => !cur.nextLink
  | cur, p :: rest => cur.nextLink && respChain p rest

/-! ## Incremental sync coordinator (`incremental_sync.py`) -/

/-- A Python `datetime` value (naive; timezone handling is not needed by
any claim). -/
structure PyDateTime where
  year : Nat
  month : Nat
  day : Nat
  hour : Nat
  minute : Nat
  second : Nat
  microsecond : Nat
deriving Repr, DecidableEq

/-- Two-digit zero padding, as produced by `strftime` field directives. -/
def pad2 (n : Nat) : String :=
  if n < 10 then "0" ++ toString n else toString n

/-- Four-digit zero padding for `%Y`. -/
def pad4 (n : Nat) : String :=
  if n < 10 then "000" ++ toString n
  else if n < 100 then "00" ++ toString n
  else if n < 1000 then "0" ++ toString n
  else toString n

/-- `last_sync_timestamp.strftime("%Y-%m-%dT%H:%M:%SZ")`
(incremental_sync.py line 166). -/
def formatODataTimestamp (t : PyDateTime) : String :=
  pad4 t.year ++ "-" ++ pad2 t.month ++ "-" ++ pad2 t.day ++ "T" ++
    pad2 t.hour ++ ":" ++ pad2 t.minute ++ ":" ++ pad2 t.second ++ "Z"

/-- Python `" and ".join(filters)`. -/
def joinAnd : List String → String
  | [] => ""
  | [s] => s
  | s :: rest => s ++ " and " ++ joinAnd rest

/-- `IncrementalSyncManager.build_incremental_filter`
(incremental_sync.py lines 147-174).  Python truthiness: an absent or empty
`additional_filter` contributes nothing; a `datetime` is always truthy. -/
def build_incremental_filter (incrementalField : String)
    (lastSyncTimestamp : Option PyDateTime) (additionalFilter : Option String) : String :=
  let filters : List String :=
    (match lastSyncTimestamp with
     | some ts => [incrementalField ++ " gt " ++ formatODataTimestamp ts]
     | none => []) ++
    (match additionalFilter with
     | some f => if f = "" then [] else [f]
     | none => [])
  if filters.isEmpty then "" else joinAnd filters

/-- `(a + b - 1) // b`, the ceiling-division idiom used at
incremental_sync.py lines 395 and 404 (Python `//` is floor division,
`Int.fdiv`). -/
def ceilDivInt (a b : Int) : Int :=
  (a + b - 1).fdiv b

/-- `IncrementalSyncManager.calculate_optimal_batch_size`
(incremental_sync.py lines 374-406). -/
def calculate_optimal_batch_size (estimatedRecords quotaRemaining maxBatchSize : Int) : Int :=
  if quotaRemaining ≤ 0 then 0
  else
    let pagesNeeded := ceilDivInt estimatedRecords maxBatchSize
    if pagesNeeded ≤ quotaRemaining then maxBatchSize
    else
      let optimalSize := ceilDivInt estimatedRecords quotaRemaining
      min optimalSize maxBatchSize

/-! ## Field normalizer (`data_transformer.py`, `normalize_field_name`)

Characters are handled with core ASCII helpers (`Char.toLower`,
`Char.isAlphanum`), which agree with Python's `str.lower` and the regex
classes `[^a-zA-Z0-9_]` on the ASCII range; the memoization cache of the
Python method caches a pure function (failed calls are not cached), so the
model is the pure function itself. -/

/-- Python `str.strip()` whitespace set (ASCII). -/
def pyIsSpace (c : Char) : Bool :=
  c == ' ' || c == '\t' || c == '\n' || c == '\r' || c == '\x0b' || c == '\x0c'

/-- Python `s.strip()`. -/
def pyStrip (s : String) : String :=
  String.mk (((s.toList.dropWhile pyIsSpace).reverse.dropWhile pyIsSpace).reverse)

/-- The character class `[a-zA-Z0-9_]` of the normalization regex. -/
def isWordChar (c : Char) : Bool :=
  c.isAlphanum || c == '_'

/-- `re.sub(r'[^a-zA-Z0-9_]', '_', ·)` applied to one character. -/
def replaceNonWord (c : Char) : Char :=
  if isWordChar c then c else '_'

/-- `re.sub(r'_+', '_', ·)`: collapse each maximal run of underscores to a
single underscore. -/
def collapseUnderscores : List Char → List Char
  | [] => []
  | [c] => [c]
  | c1 :: c2 :: rest =>
    if c1 = '_' ∧ c2 = '_' then collapseUnderscores (c2 :: rest)
    else c1 :: collapseUnderscores (c2 :: rest)

def isUnderscoreChar (c : Char) : Bool := c == '_'

/-- Python `s.strip('_')`. -/
def stripUnderscores (l : List Char) : List Char :=
  ((l.dropWhile isUnderscoreChar).reverse.dropWhile isUnderscoreChar).reverse

/-- Lines 156-162 of data_transformer.py: lowercase, replace non-word
characters, collapse underscore runs, trim underscores. -/
def normalizeClean (s : String) : List Char :=
  stripUnderscores (collapseUnderscores ((s.toList.map Char.toLower).map replaceNonWord))

/-- `re.match(r'^[a-zA-Z_]', normalized)` fails (line 165): the cleaned
name is non-empty and starts with something other than a letter or
underscore. -/
def fieldPrefixNeeded : List Char → Bool
  | [] => false
  | c :: _ => !(c.isAlpha || c == '_')

/-- `DataTransformer.MYSQL_RESERVED_WORDS` (data_transformer.py
lines 54-91). -/
def mysqlReservedWords : List String := [
  "add", "all", "alter", "analyze", "and", "as", "asc", "asensitive",
  "before", "between", "bigint", "binary", "blob", "both", "by",
  "call", "cascade", "case", "change", "char", "character", "check",
  "collate", "column", "condition", "constraint", "continue", "convert",
  "create", "cross", "current_date", "current_time", "current_timestamp",
  "current_user", "cursor", "database", "databases", "day_hour",
  "day_microsecond", "day_minute", "day_second", "dec", "decimal",
  "declare", "default", "delayed", "delete", "desc", "describe",
  "deterministic", "distinct", "distinctrow", "div", "double", "drop",
  "dual", "each", "else", "elseif", "enclosed", "escaped", "exists",
  "exit", "explain", "false", "fetch", "float", "float4", "float8",
  "for", "force", "foreign", "from", "fulltext", "grant", "group",
  "having", "high_priority", "hour_microsecond", "hour_minute",
  "hour_second", "if", "ignore", "in", "index", "infile", "inner",
  "inout", "insensitive", "insert", "int", "int1", "int2", "int3",
  "int4", "int8", "integer", "interval", "into", "is", "iterate",
  "join", "key", "keys", "kill", "leading", "leave", "left", "like",
  "limit", "linear", "lines", "load", "localtime", "localtimestamp",
  "lock", "long", "longblob", "longtext", "loop", "low_priority",
  "match", "mediumblob", "mediumint", "mediumtext", "middleint",
  "minute_microsecond", "minute_second", "mod", "modifies", "natural",
  "not", "no_write_to_binlog", "null", "numeric", "on", "optimize",
  "option", "optionally", "or", "order", "out", "outer", "outfile",
  "precision", "primary", "procedure", "purge", "range", "read",
  "reads", "real", "references", "regexp", "release", "rename",
  "repeat", "replace", "require", "restrict", "return", "revoke",
  "right", "rlike", "schema", "schemas", "second_microsecond", "select",
  "sensitive", "separator", "set", "show", "smallint", "spatial",
  "specific", "sql", "sqlexception", "sqlstate", "sqlwarning",
  "sql_big_result", "sql_calc_found_rows", "sql_small_result", "ssl",
  "starting", "straight_join", "table", "terminated", "then", "tinyblob",
  "tinyint", "tinytext", "to", "trailing", "trigger", "true", "undo",
  "union", "unique", "unlock", "unsigned", "update", "usage", "use",
  "using", "utc_date", "utc_time", "utc_timestamp", "values", "varbinary",
  "varchar", "varcharacter", "varying", "when", "where", "while",
  "with", "write", "x509", "xor", "year_month", "zerofill"]

/-- Lines 165-166: prefix `field_` when the cleaned name does not start
with a letter or underscore. -/
def prefixAdjust (n1 : List Char) : List Char :=
  if fieldPrefixNeeded n1 then "field_".toList ++ n1 else n1

/-- Lines 169-170: substitute `field_unknown` for an empty cleaned name. -/
def emptyAdjust (n2 : List Char) : List Char :=
  if n2.isEmpty then "field_unknown".toList else n2

/-- Lines 173-174: append `_field` when the name collides with a MySQL
reserved word. -/
def reservedAdjust (n3 : List Char) : List Char :=
  if String.mk (n3.map Char.toLower) ∈ mysqlReservedWords then n3 ++ "_field".toList
  else n3

/-- `normalize_field_name` before the two truncation steps
(data_transformer.py lines 144-174): `none` models the
`DataTransformationError` raised for empty or whitespace-only input (the
null/non-string failure has no counterpart for a typed `String`). -/
def normalizePreTrunc (s : String) : Option (List Char) :=
  if pyStrip s = "" then none
  else some (reservedAdjust (emptyAdjust (prefixAdjust (normalizeClean s))))

/-- First truncation (lines 177-185): names over 64 characters are cut,
preserving a `_field` suffix. -/
def truncateStep1 (l : List Char) : List Char :=
  if 64 < l.length then
    if "_field".toList.isSuffixOf l then l.take 58 ++ "_field".toList
    else l.take 64
  else l

/-- Emergency truncation (lines 188-190). -/
def truncateStep2 (l : List Char) : List Char :=
  if 64 < l.length then l.take 64 else l

/-- `DataTransformer.normalize_field_name` (data_transformer.py
lines 128-195). -/
def normalize_field_name (s : String) : Option String :=
  (normalizePreTrunc s).map (fun l => String.mk (truncateStep2 (truncateStep1 l)))

/-- Character class of fully normalized identifiers: `[a-z0-9_]`. -/
def charOK (c : Char) : Bool :=
  c.isLower || c.isDigit || c == '_'

/-- Adjacent characters that are not both underscores (the shape left by
underscore-run collapsing). -/
def NotBothUnderscore (a b : Char) : Prop :=
  ¬(a = '_' ∧ b = '_')

/-- No two adjacent underscores anywhere in the list. -/
def NoDouble (l : List Char) : Prop :=
  List.Chain' NotBothUnderscore l

instance : DecidableRel NotBothUnderscore := fun a b =>
  inferInstanceAs (Decidable (¬(a = '_' ∧ b = '_')))

instance (l : List Char) : Decidable (NoDouble l) :=
  inferInstanceAs (Decidable (List.Chain' NotBothUnderscore l))

/-- The invariant satisfied by every pre-truncation output of
`normalize_field_name`: lowercase word characters only, no underscore
runs, non-empty, no underscore at either end, starts with a letter or
underscore, and not a reserved word. -/
def NormalizedShape (y : List Char) : Prop :=
  (∀ c ∈ y, charOK c = true) ∧ NoDouble y ∧ y ≠ [] ∧
  y.head? ≠ some '_' ∧ y.getLast? ≠ some '_' ∧
  fieldPrefixNeeded y = false ∧ String.mk y ∉ mysqlReservedWords

/-! ## Type coercion engine (`data_transformer.py`, `convert_data_type`)

Python values are embedded as `Value`: JSON / API values, plus the typed
values the transformer produces.  Python numbers are exact here: floats are
the rationals named by their `repr` (every claim is insensitive to binary
rounding), `Decimal` is a rational.  `Decimal(str(x))` for an int or float
therefore yields the same rational.  Error messages keep the Python text up
to the wrapped exception detail, which is elided. -/

/-- An exact decimal number `mant / 10 ^ exp`, the value denoted by a
Python numeric literal.  Python floats appear in this pipeline only as the
decimal literals of JSON bodies and their `repr` strings, so the decimal
value is the faithful embedding; `Decimal` keeps its scale (`exp`) exactly
as Python does. -/
structure DecForm where
  mant : Int
  exp : Nat
deriving Repr, DecidableEq

inductive Value where
  | vNull
  | vStr (s : String)
  | vInt (n : Int)
  | vFloat (d : DecForm)
  | vDecimal (d : DecForm)
  | vBool (b : Bool)
  | vDatetime (d : PyDateTime)
deriving Repr, DecidableEq

/-- The two error classes of the transformer
(data_transformer.py lines 16-23). -/
inductive TError where
  | dataTransformationError (msg : String)
  | validationError (msg : String)
deriving Repr, DecidableEq

def terrMsg : TError → String
  | TError.dataTransformationError m => m
  | TError.validationError m => m

instance {ε α : Type} [DecidableEq ε] [DecidableEq α] : DecidableEq (Except ε α) :=
  fun a b =>
    match a, b with
    | Except.ok x, Except.ok y =>
      if h : x = y then isTrue (by rw [h])
      else isFalse (fun hc => h (Except.ok.inj hc))
    | Except.error x, Except.error y =>
      if h : x = y then isTrue (by rw [h])
      else isFalse (fun hc => h (Except.error.inj hc))
    | Except.ok _, Except.error _ => isFalse (fun hc => Except.noConfusion hc)
    | Except.error _, Except.ok _ => isFalse (fun hc => Except.noConfusion hc)

/-- Zero padding to six digits (`%f` in `str(datetime)`). -/
def pad6 (n : Nat) : String :=
  String.mk (List.replicate (6 - (toString n).length) '0') ++ toString n

def digitsToNat (l : List Char) : Nat :=
  l.foldl (fun a c => a * 10 + (c.toNat - 48)) 0

/-- Left-pad a digit string with zeros to `w` characters. -/
def padZeros (w : Nat) (s : String) : String :=
  String.mk (List.replicate (w - s.length) '0') ++ s

def stripTrailingZeros (l : List Char) : List Char :=
  (l.reverse.dropWhile (fun c => c == '0')).reverse

/-- Python `str(float)`: decimal rendering, trailing zeros dropped, with a
`.0` for integral values. -/
def floatToString (d : DecForm) : String :=
  let sign := if d.mant < 0 then "-" else ""
  let a := d.mant.natAbs
  let p := 10 ^ d.exp
  let fracPart := stripTrailingZeros (padZeros d.exp (toString (a % p))).toList
  if fracPart.isEmpty then sign ++ toString (a / p) ++ ".0"
  else sign ++ toString (a / p) ++ "." ++ String.mk fracPart

/-- Python `str(Decimal)`: the scale is preserved exactly. -/
def decimalToString (d : DecForm) : String :=
  if d.exp = 0 then toString d.mant
  else
    (if d.mant < 0 then "-" else "") ++ toString (d.mant.natAbs / 10 ^ d.exp) ++ "." ++
      padZeros d.exp (toString (d.mant.natAbs % 10 ^ d.exp))

/-- Python `str(datetime)`. -/
def pyDatetimeStr (t : PyDateTime) : String :=
  pad4 t.year ++ "-" ++ pad2 t.month ++ "-" ++ pad2 t.day ++ " " ++
    pad2 t.hour ++ ":" ++ pad2 t.minute ++ ":" ++ pad2 t.second ++
    (if t.microsecond = 0 then "" else "." ++ pad6 t.microsecond)

/-- Python `str(value)`. -/
def pyStr : Value → String
  | Value.vNull => "None"
  | Value.vStr s => s
  | Value.vInt n => toString n
  | Value.vFloat d => floatToString d
  | Value.vDecimal d => decimalToString d
  | Value.vBool b => if b then "True" else "False"
  | Value.vDatetime t => pyDatetimeStr t

/-- Python truthiness `bool(value)`. -/
def pyTruthy : Value → Bool
  | Value.vNull => false
  | Value.vStr s => s != ""
  | Value.vInt n => n != 0
  | Value.vFloat d => d.mant != 0
  | Value.vDecimal d => d.mant != 0
  | Value.vBool b => b
  | Value.vDatetime _ => true

/-- Truncation toward zero, Python `int()` on a number. -/
def truncDecForm (d : DecForm) : Int :=
  d.mant.tdiv ((10 : Int) ^ d.exp)

def splitSign : List Char → Bool × List Char
  | '+' :: rest => (false, rest)
  | '-' :: rest => (true, rest)
  | l => (false, l)

/-- Mantissa of a Python numeric literal: digits with an optional single
decimal point; at least one digit overall. -/
def parseUnsignedDec (l : List Char) : Option (DecForm × List Char) :=
  let ip := l.takeWhile Char.isDigit
  let rest1 := l.dropWhile Char.isDigit
  match rest1 with
  | '.' :: rest2 =>
    let fp := rest2.takeWhile Char.isDigit
    let rest3 := rest2.dropWhile Char.isDigit
    if ip.isEmpty && fp.isEmpty then none
    else some (⟨(digitsToNat (ip ++ fp) : Int), fp.length⟩, rest3)
  | _ =>
    if ip.isEmpty then none
    else some (⟨(digitsToNat ip : Int), 0⟩, rest1)

/-- Optional exponent suffix of a numeric literal; the whole remainder
must be consumed. -/
def applyExponent (d : DecForm) : List Char → Option DecForm
  | [] => some d
  | c :: rest =>
    if c = 'e' ∨ c = 'E' then
      let sr := splitSign rest
      let ds := sr.2.takeWhile Char.isDigit
      let rest3 := sr.2.dropWhile Char.isDigit
      if ds.isEmpty || !rest3.isEmpty then none
      else some (if sr.1 then ⟨d.mant, d.exp + digitsToNat ds⟩
                 else ⟨d.mant * (10 : Int) ^ digitsToNat ds, d.exp⟩)
    else none

/-- Python `float(s)` / `Decimal(s)` on a pre-stripped literal (the
special values `inf` and `nan` and underscore separators are outside the
model). -/
def parseFloatValue (s : String) : Option DecForm :=
  let sl := splitSign s.toList
  match parseUnsignedDec sl.2 with
  | none => none
  | some (d, rest) =>
    match applyExponent d rest with
    | none => none
    | some d2 => some (if sl.1 then ⟨-d2.mant, d2.exp⟩ else d2)

/-- Python `str.replace(c, '')`. -/
def removeChar (c : Char) (l : List Char) : List Char :=
  l.filter (fun x => x != c)

def typeName : Value → String
  | Value.vNull => "NoneType"
  | Value.vStr _ => "str"
  | Value.vInt _ => "int"
  | Value.vFloat _ => "float"
  | Value.vDecimal _ => "Decimal"
  | Value.vBool _ => "bool"
  | Value.vDatetime _ => "datetime"

/-! ### `strptime` for the seven formats of the datetime branch -/

inductive FmtTok where
  | year | month | day | hour | minute | second | micro
  | lit (c : Char)

structure DtFields where
  year : Nat
  month : Nat
  day : Nat
  hour : Nat
  minute : Nat
  second : Nat
  micro : Nat

/-- A 1-2 digit numeric field, taking two digits when they form an
in-range value and backtracking to one otherwise, as CPython's
`_strptime` regexes do. -/
def parseField2 (lo hi : Nat) : List Char → Option (Nat × List Char)
  | c1 :: c2 :: rest =>
    if c1.isDigit && c2.isDigit then
      let v2 := (c1.toNat - 48) * 10 + (c2.toNat - 48)
      if lo ≤ v2 ∧ v2 ≤ hi then some (v2, rest)
      else if lo ≤ c1.toNat - 48 ∧ c1.toNat - 48 ≤ hi then some (c1.toNat - 48, c2 :: rest)
      else none
    else if c1.isDigit then
      if lo ≤ c1.toNat - 48 ∧ c1.toNat - 48 ≤ hi then some (c1.toNat - 48, c2 :: rest)
      else none
    else none
  | [c1] =>
    if c1.isDigit then
      if lo ≤ c1.toNat - 48 ∧ c1.toNat - 48 ≤ hi then some (c1.toNat - 48, [])
      else none
    else none
  | [] => none

/-- `%Y`: exactly four digits. -/
def parseField4 : List Char → Option (Nat × List Char)
  | a :: b :: c :: d :: rest =>
    if a.isDigit && b.isDigit && c.isDigit && d.isDigit then
      some (digitsToNat [a, b, c, d], rest)
    else none
  | _ => none

/-- `%f`: one to six digits, scaled to microseconds. -/
def parseMicroDigits (l : List Char) : Option (Nat × List Char) :=
  let ds := (l.takeWhile Char.isDigit).take 6
  if ds.isEmpty then none
  else some (digitsToNat ds * 10 ^ (6 - ds.length), l.drop ds.length)

def runFormat : List FmtTok → List Char → DtFields → Option DtFields
  | [], [], acc => some acc
  | [], _ :: _, _ => none
  | FmtTok.lit c :: toks, l, acc =>
    match l with
    | c2 :: rest => if c2 = c then runFormat toks rest acc else none
    | [] => none
  | FmtTok.year :: toks, l, acc =>
    match parseField4 l with
    | some (v, rest) => runFormat toks rest { acc with year := v }
    | none => none
  | FmtTok.month :: toks, l, acc =>
    match parseField2 1 12 l with
    | some (v, rest) => runFormat toks rest { acc with month := v }
    | none => none
  | FmtTok.day :: toks, l, acc =>
    match parseField2 1 31 l with
    | some (v, rest) => runFormat toks rest { acc with day := v }
    | none => none
  | FmtTok.hour :: toks, l, acc =>
    match parseField2 0 23 l with
    | some (v, rest) => runFormat toks rest { acc with hour := v }
    | none => none
  | FmtTok.minute :: toks, l, acc =>
    match parseField2 0 59 l with
    | some (v, rest) => runFormat toks rest { acc with minute := v }
    | none => none
  | FmtTok.second :: toks, l, acc =>
    match parseField2 0 59 l with
    | some (v, rest) => runFormat toks rest { acc with second := v }
    | none => none
  | FmtTok.micro :: toks, l, acc =>
    match parseMicroDigits l with
    | some (v, rest) => runFormat toks rest { acc with micro := v }
    | none => none

def isLeapYear (y : Nat) : Bool :=
  (y % 4 == 0 && y % 100 != 0) || y % 400 == 0

def daysInMonth (y m : Nat) : Nat :=
  if m = 2 then (if isLeapYear y then 29 else 28)
  else if m = 4 ∨ m = 6 ∨ m = 9 ∨ m = 11 then 30
  else 31

/-- `datetime.strptime(s, fmt)`: full-string match, then calendar
validation by the `datetime` constructor. -/
def strptime (toks : List FmtTok) (s : String) : Option PyDateTime :=
  match runFormat toks s.toList ⟨1900, 1, 1, 0, 0, 0, 0⟩ with
  | none => none
  | some f =>
    if 1 ≤ f.year ∧ 1 ≤ f.day ∧ f.day ≤ daysInMonth f.year f.month then
      some ⟨f.year, f.month, f.day, f.hour, f.minute, f.second, f.micro⟩
    else none

def fmtIsoMicroZ : List FmtTok :=
  [FmtTok.year, FmtTok.lit '-', FmtTok.month, FmtTok.lit '-', FmtTok.day, FmtTok.lit 'T',
   FmtTok.hour, FmtTok.lit ':', FmtTok.minute, FmtTok.lit ':', FmtTok.second,
   FmtTok.lit '.', FmtTok.micro, FmtTok.lit 'Z']

def fmtIsoZ : List FmtTok :=
  [FmtTok.year, FmtTok.lit '-', FmtTok.month, FmtTok.lit '-', FmtTok.day, FmtTok.lit 'T',
   FmtTok.hour, FmtTok.lit ':', FmtTok.minute, FmtTok.lit ':', FmtTok.second, FmtTok.lit 'Z']

def fmtIso : List FmtTok :=
  [FmtTok.year, FmtTok.lit '-', FmtTok.month, FmtTok.lit '-', FmtTok.day, FmtTok.lit 'T',
   FmtTok.hour, FmtTok.lit ':', FmtTok.minute, FmtTok.lit ':', FmtTok.second]

def fmtSql : List FmtTok :=
  [FmtTok.year, FmtTok.lit '-', FmtTok.month, FmtTok.lit '-', FmtTok.day, FmtTok.lit ' ',
   FmtTok.hour, FmtTok.lit ':', FmtTok.minute, FmtTok.lit ':', FmtTok.second]

def fmtDateOnly : List FmtTok :=
  [FmtTok.year, FmtTok.lit '-', FmtTok.month, FmtTok.lit '-', FmtTok.day]

def fmtUsDate : List FmtTok :=
  [FmtTok.month, FmtTok.lit '/', FmtTok.day, FmtTok.lit '/', FmtTok.year]

def fmtUsDatetime : List FmtTok :=
  [FmtTok.month, FmtTok.lit '/', FmtTok.day, FmtTok.lit '/', FmtTok.year, FmtTok.lit ' ',
   FmtTok.hour, FmtTok.lit ':', FmtTok.minute, FmtTok.lit ':', FmtTok.second]

/-- The ordered format list of the datetime branch
(data_transformer.py lines 262-270). -/
def datetimeFormats : List (List FmtTok) :=
  [fmtIsoMicroZ, fmtIsoZ, fmtIso, fmtSql, fmtDateOnly, fmtUsDate, fmtUsDatetime]

/-- First format that matches wins (lines 272-276). -/
def tryFormats : List (List FmtTok) → String → Option PyDateTime
  | [], _ => none
  | f :: fs, s =>
    match strptime f s with
    | some d => some d
    | none => tryFormats fs s

/-- `DataTransformer.convert_data_type` (data_transformer.py
lines 197-304).  `isinstance` nuances follow Python: `bool` is a subclass
of `int`, so a boolean under the integer target is returned unchanged, and
under the decimal target `Decimal(str(True))` raises. -/
def convert_data_type (value : Value) (targetType : String) (fieldName : String) :
    Except TError Value :=
  if value = Value.vNull then Except.ok Value.vNull
  else if targetType = "string" then
    match value with
    | Value.vStr s => Except.ok (if pyStrip s = "" then Value.vNull else Value.vStr (pyStrip s))
    | v => Except.ok (Value.vStr (pyStr v))
  else if targetType = "integer" then
    match value with
    | Value.vInt n => Except.ok (Value.vInt n)
    | Value.vBool b => Except.ok (Value.vBool b)
    | Value.vFloat d => Except.ok (Value.vInt (truncDecForm d))
    | Value.vDecimal d => Except.ok (Value.vInt (truncDecForm d))
    | Value.vStr s =>
      if removeChar ',' (pyStrip s).toList = [] then Except.ok Value.vNull
      else
        match parseFloatValue (String.mk (removeChar ',' (pyStrip s).toList)) with
        | some d => Except.ok (Value.vInt (truncDecForm d))
        | none => Except.error (TError.dataTransformationError
            ("Failed to convert " ++ fieldName ++ " value " ++ pyStr value ++ " to integer"))
    | v => Except.error (TError.dataTransformationError
        ("Failed to convert " ++ fieldName ++ " value " ++ pyStr v ++ " to integer"))
  else if targetType = "decimal" then
    match value with
    | Value.vDecimal d => Except.ok (Value.vDecimal d)
    | Value.vInt n => Except.ok (Value.vDecimal ⟨n, 0⟩)
    | Value.vFloat d => Except.ok (Value.vDecimal d)
    | Value.vStr s =>
      if removeChar '$' (removeChar ',' (pyStrip s).toList) = [] then Except.ok Value.vNull
      else
        match parseFloatValue (String.mk (removeChar '$' (removeChar ',' (pyStrip s).toList))) with
        | some d => Except.ok (Value.vDecimal d)
        | none => Except.error (TError.dataTransformationError
            ("Failed to convert " ++ fieldName ++ " value " ++ pyStr value ++ " to decimal"))
    | v => Except.error (TError.dataTransformationError
        ("Failed to convert " ++ fieldName ++ " value " ++ pyStr v ++ " to decimal"))
  else if targetType = "datetime" then
    match value with
    | Value.vDatetime d => Except.ok (Value.vDatetime d)
    | Value.vStr s =>
      match tryFormats datetimeFormats s with
      | some d => Except.ok (Value.vDatetime d)
      | none => Except.error (TError.dataTransformationError
          ("Unable to parse datetime: " ++ s))
    | v => Except.error (TError.dataTransformationError
        ("Cannot convert " ++ typeName v ++ " to datetime"))
  else if targetType = "boolean" then
    match value with
    | Value.vBool b => Except.ok (Value.vBool b)
    | Value.vStr s =>
      if pyStrip (String.mk (s.toList.map Char.toLower)) ∈
          (["true", "1", "yes", "y", "on"] : List String) then
        Except.ok (Value.vBool true)
      else if pyStrip (String.mk (s.toList.map Char.toLower)) ∈
          (["false", "0", "no", "n", "off"] : List String) then
        Except.ok (Value.vBool false)
      else Except.error (TError.dataTransformationError
        ("Cannot convert string to boolean: " ++ s))
    | v => Except.ok (Value.vBool (pyTruthy v))
  else
    Except.error (TError.dataTransformationError ("Unknown target type: " ++ targetType))

/-! ## Record transformer (`data_transformer.py`)

Python dicts are association lists in insertion order; `dictSet` models
`d[k] = v` (update in place or append). -/

/-- Python `s.startswith(pre)`. -/
def pyStartsWith (s pre : String) : Bool :=
  pre.toList.isPrefixOf s.toList

def dictLookup (d : List (String × Value)) (k : String) : Option Value :=
  (d.find? (fun p => p.1 == k)).map Prod.snd

def dictSet (d : List (String × Value)) (k : String) (v : Value) : List (String × Value) :=
  if d.any (fun p => p.1 == k) then
    d.map (fun p => if p.1 == k then (p.1, v) else p)
  else d ++ [(k, v)]

/-- `REQUIRED_FIELDS` keys (data_transformer.py lines 94-97). -/
def requiredFieldNames : List String :=
  ["listing_key", "modification_timestamp"]

/-- `FIELD_TYPE_MAPPINGS` (lines 100-115) combined with the target-type
selection of `transform_record` (lines 440-455): datetime before
decimal/float before int before bool, else string. -/
def fieldTargetType (f : String) : Option String :=
  if f = "listing_key" then some "string"
  else if f = "list_price" then some "decimal"
  else if f = "property_type" then some "string"
  else if f = "bedrooms_total" then some "integer"
  else if f = "bathrooms_total" then some "decimal"
  else if f = "square_feet" then some "integer"
  else if f = "lot_size_acres" then some "decimal"
  else if f = "year_built" then some "integer"
  else if f = "listing_status" then some "string"
  else if f = "modification_timestamp" then some "datetime"
  else if f = "street_address" then some "string"
  else if f = "city" then some "string"
  else if f = "state_or_province" then some "string"
  else if f = "postal_code" then some "string"
  else none

def isinstanceStr : Value → Bool
  | Value.vStr _ => true
  | _ => false

def isinstanceDatetime : Value → Bool
  | Value.vDatetime _ => true
  | _ => false

/-- `isinstance(v, int)`: Python `bool` is a subclass of `int`. -/
def isinstanceIntLike : Value → Bool
  | Value.vInt _ => true
  | Value.vBool _ => true
  | _ => false

/-- `isinstance(v, (int, float, Decimal))`. -/
def isinstanceNumLike : Value → Bool
  | Value.vInt _ => true
  | Value.vBool _ => true
  | Value.vFloat _ => true
  | Value.vDecimal _ => true
  | _ => false

/-- The isinstance test of `FIELD_TYPE_MAPPINGS` for the optional-field
warning loop (lines 331-338), with the `NoneType` member dropped because
the loop already guards `value is not None`. -/
def fieldTypeCheck (f : String) : Option (Value → Bool) :=
  if f = "listing_key" then some isinstanceStr
  else if f = "list_price" then some isinstanceNumLike
  else if f = "property_type" then some isinstanceStr
  else if f = "bedrooms_total" then some isinstanceIntLike
  else if f = "bathrooms_total" then some isinstanceNumLike
  else if f = "square_feet" then some isinstanceIntLike
  else if f = "lot_size_acres" then some isinstanceNumLike
  else if f = "year_built" then some isinstanceIntLike
  else if f = "listing_status" then some isinstanceStr
  else if f = "modification_timestamp" then some isinstanceDatetime
  else if f = "street_address" then some isinstanceStr
  else if f = "city" then some isinstanceStr
  else if f = "state_or_province" then some isinstanceStr
  else if f = "postal_code" then some isinstanceStr
  else none

/-- Python `float(value)` over embedded values (`None` and datetimes raise
`TypeError`). -/
def pyFloatOf : Value → Option DecForm
  | Value.vInt n => some ⟨n, 0⟩
  | Value.vFloat d => some d
  | Value.vDecimal d => some d
  | Value.vBool b => some ⟨if b then 1 else 0, 0⟩
  | Value.vStr s => parseFloatValue (pyStrip s)
  | _ => none

/-- Python `int(s)` on a string: an optionally signed digit string. -/
def parseIntLit (s : String) : Option Int :=
  let sl := splitSign (pyStrip s).toList
  if sl.2.isEmpty || !(sl.2.all Char.isDigit) then none
  else some (if sl.1 then -(digitsToNat sl.2 : Int) else (digitsToNat sl.2 : Int))

/-- Python `int(value)` over embedded values. -/
def pyIntOf : Value → Option Int
  | Value.vInt n => some n
  | Value.vBool b => some (if b then 1 else 0)
  | Value.vFloat d => some (truncDecForm d)
  | Value.vDecimal d => some (truncDecForm d)
  | Value.vStr s => parseIntLit s
  | _ => none

/-- `value > 1_000_000_000` for a decimal form. -/
def decFormGtBillion (d : DecForm) : Bool :=
  d.mant > 1000000000 * (10 : Int) ^ d.exp

structure ValidationResult where
  isValid : Bool
  errors : List String
  warnings : List String
deriving Repr, DecidableEq

/-- One required-field check of lines 320-328. -/
def checkRequiredField (record : List (String × Value)) (fname : String)
    (check : Value → Bool) (tname : String) : List String :=
  match dictLookup record fname with
  | none => ["Missing required field: " ++ fname]
  | some Value.vNull => ["Required field " ++ fname ++ " is null"]
  | some v =>
    if check v then []
    else ["Field " ++ fname ++ " has wrong type: expected " ++ tname ++ ", got " ++ typeName v]

/-- The optional-field type warnings of lines 331-338 (message text
abbreviated; warnings never affect validity). -/
def typeWarnings (record : List (String × Value)) : List String :=
  (record.map (fun p =>
    match fieldTypeCheck p.1 with
    | none => []
    | some check =>
      if p.2 ≠ Value.vNull ∧ check p.2 = false then
        ["Field " ++ p.1 ++ " has unexpected type, got " ++ typeName p.2]
      else [])).flatten

/-- Business rule for `list_price` (lines 341-349): errors and warnings. -/
def listPriceRule (record : List (String × Value)) : List String × List String :=
  match dictLookup record "list_price" with
  | none => ([], [])
  | some Value.vNull => ([], [])
  | some v =>
    match pyFloatOf v with
    | none => (["Invalid list price format: " ++ pyStr v], [])
    | some d =>
      if d.mant < 0 then (["List price cannot be negative"], [])
      else if decFormGtBillion d then
        ([], ["List price seems unusually high: " ++ pyStr v])
      else ([], [])

/-- Business rule for `year_built` (lines 351-360). -/
def yearBuiltRule (currentYear : Nat) (record : List (String × Value)) :
    List String × List String :=
  match dictLookup record "year_built" with
  | none => ([], [])
  | some Value.vNull => ([], [])
  | some v =>
    match pyIntOf v with
    | none => (["Invalid year built format: " ++ pyStr v], [])
    | some y =>
      if y < 1800 then (["Year built too early: " ++ toString y], [])
      else if y > (currentYear : Int) + 5 then
        (["Year built too far in future: " ++ toString y], [])
      else ([], [])

/-- Business rule for `bedrooms_total` (lines 362-370). -/
def bedroomsRule (record : List (String × Value)) : List String × List String :=
  match dictLookup record "bedrooms_total" with
  | none => ([], [])
  | some Value.vNull => ([], [])
  | some v =>
    match pyIntOf v with
    | none => (["Invalid bedrooms format: " ++ pyStr v], [])
    | some b =>
      if b < 0 then (["Bedrooms cannot be negative"], [])
      else if b > 50 then ([], ["Unusually high bedroom count: " ++ toString b])
      else ([], [])

/-- `DataTransformer.validate_required_fields` (data_transformer.py
lines 306-376); `currentYear` stands for `datetime.now().year`. -/
def validate_required_fields (currentYear : Nat) (record : List (String × Value)) :
    ValidationResult :=
  let errs :=
    checkRequiredField record "listing_key" isinstanceStr "str" ++
    checkRequiredField record "modification_timestamp" isinstanceDatetime "datetime" ++
    (listPriceRule record).1 ++ (yearBuiltRule currentYear record).1 ++
    (bedroomsRule record).1
  { isValid := errs.isEmpty,
    errors := errs,
    warnings := typeWarnings record ++ (listPriceRule record).2 ++
      (yearBuiltRule currentYear record).2 ++ (bedroomsRule record).2 }

/-- `DataTransformer.detect_duplicate` (data_transformer.py
lines 378-404).  Returns the verdict and the updated internal seen-key
set (`self._duplicate_keys`); a key found in the caller-supplied
`existing_keys` is reported as a duplicate without being registered. -/
def detect_duplicate (record : List (String × Value)) (existingKeys : List String)
    (seen : List String) : Bool × List String :=
  match dictLookup record "listing_key" with
  | none => (false, seen)
  | some Value.vNull => (false, seen)
  | some v =>
    if !existingKeys.isEmpty && pyStr v ∈ existingKeys then (true, seen)
    else if pyStr v ∈ seen then (true, seen)
    else (false, pyStr v :: seen)

/-- The field loop of `transform_record` (data_transformer.py
lines 427-473). -/
def transformFieldsGo :
    List (String × Value) → List (String × Value) → Except TError (List (String × Value))
  | transformed, [] => Except.ok transformed
  | transformed, (apiField, v) :: rest =>
    if pyStartsWith apiField "@" || pyStartsWith apiField "_" then
      transformFieldsGo transformed rest
    else
      match normalize_field_name apiField with
      | none => transformFieldsGo transformed rest
      | some dbField =>
        match fieldTargetType dbField with
        | some tt =>
          match convert_data_type v tt apiField with
          | Except.ok cv => transformFieldsGo (dictSet transformed dbField cv) rest
          | Except.error e =>
            if dbField ∈ requiredFieldNames then
              Except.error (TError.validationError
                ("Required field conversion failed: " ++ terrMsg e))
            else transformFieldsGo (dictSet transformed dbField Value.vNull) rest
        | none =>
          match convert_data_type v "string" apiField with
          | Except.ok cv => transformFieldsGo (dictSet transformed dbField cv) rest
          | Except.error _ => transformFieldsGo transformed rest

/-- `DataTransformer.transform_record` (data_transformer.py
lines 406-488), returning the outcome together with the updated internal
seen-key set. -/
def transform_record (currentYear : Nat) (apiRecord : List (String × Value))
    (existingKeys : List String) (seen : List String) :
    Except TError (List (String × Value)) × List String :=
  match transformFieldsGo [] apiRecord with
  | Except.error e => (Except.error e, seen)
  | Except.ok transformed =>
    if (validate_required_fields currentYear transformed).isValid then
      (Except.ok (dictSet transformed "_is_duplicate"
        (Value.vBool (detect_duplicate transformed existingKeys seen).1)),
       (detect_duplicate transformed existingKeys seen).2)
    else
      (Except.error (TError.validationError
        ("Record validation failed: " ++
          String.intercalate "; " (validate_required_fields currentYear transformed).errors)),
       seen)

structure TransformationStats where
  total_records : Nat
  valid_records : Nat
  invalid_records : Nat
  duplicates_detected : Nat
  field_transformations : List (String × Nat)
  validation_errors : List String
deriving Repr, DecidableEq

structure BatchOutput where
  records : List (List (String × Value))
  stats : TransformationStats
deriving Repr, DecidableEq

/-- `field_transformations[field] = field_transformations.get(field, 0) + 1`. -/
def bumpCount (ft : List (String × Nat)) (f : String) : List (String × Nat) :=
  if ft.any (fun p => p.1 == f) then
    ft.map (fun p => if p.1 == f then (p.1, p.2 + 1) else p)
  else ft ++ [(f, 1)]

/-- Lines 520-522: count each produced field not starting with `_`. -/
def trackFieldTransformations (ft : List (String × Nat))
    (transformed : List (String × Value)) : List (String × Nat) :=
  transformed.foldl (fun acc p => if pyStartsWith p.1 "_" then acc else bumpCount acc p.1) ft

/-- `r.get('_is_duplicate', False)` truthiness. -/
def isDuplicateFlagged (r : List (String × Value)) : Bool :=
  match dictLookup r "_is_duplicate" with
  | some v => pyTruthy v
  | none => false

/-- The record loop of `transform_batch` (data_transformer.py
lines 514-530), threading the index, seen-key set, accumulated records,
error messages and field counts. -/
def transformBatchGo (currentYear : Nat) (existingKeys : List String)
    (continueOnError : Bool) :
    List (List (String × Value)) → Nat → List String →
    List (List (String × Value)) → List String → List (String × Nat) →
    Except TError (List (List (String × Value)) × List String × List (String × Nat))
  | [], _, _, accR, accE, ft => Except.ok (accR, accE, ft)
  | record :: rest, i, seen, accR, accE, ft =>
    match transform_record currentYear record existingKeys seen with
    | (Except.ok transformed, seen2) =>
      transformBatchGo currentYear existingKeys continueOnError rest (i + 1) seen2
        (accR ++ [transformed]) accE (trackFieldTransformations ft transformed)
    | (Except.error e, seen2) =>
      if continueOnError then
        transformBatchGo currentYear existingKeys continueOnError rest (i + 1) seen2
          accR (accE ++ ["Record " ++ toString i ++ ": " ++ terrMsg e]) ft
      else
        Except.error (TError.dataTransformationError
          ("Batch transformation failed: " ++
            "Record " ++ toString i ++ ": " ++ terrMsg e))

/-- `DataTransformer.transform_batch` (data_transformer.py
lines 490-550).  The duplicate cache is cleared at batch start
(line 512): the loop starts with an empty seen-key set. -/
def transform_batch (currentYear : Nat) (apiRecords : List (List (String × Value)))
    (existingKeys : List String) (continueOnError : Bool) :
    Except TError BatchOutput :=
  match transformBatchGo currentYear existingKeys continueOnError apiRecords 0 [] [] [] [] with
  | Except.error e => Except.error e
  | Except.ok (records, errs, ft) =>
    Except.ok
      { records := records,
        stats :=
          { total_records := apiRecords.length,
            valid_records := records.length,
            invalid_records := apiRecords.length - records.length,
            duplicates_detected := records.countP (fun r => isDuplicateFlagged r),
            field_transformations := ft,
            validation_errors := errs } }

/-! ## Incremental sync coordinator: batching (`incremental_sync.py`)

The OData client is the coordinator's collaborator: `fetch` stands for
`odata_client.execute_paginated_query(entity_set, filter_expr,
select_fields, top)`, returning the fetched records or the message of the
exception it raised.  Wall-clock fields (`start_time`, `end_time`) and the
loader are outside the claims and not modelled. -/

inductive DataType where
  | property
  | media
  | member
  | office
deriving Repr, DecidableEq

/-- `DataType.value` entity-set names. -/
def dataTypeValue : DataType → String
  | DataType.property => "Property"
  | DataType.media => "Media"
  | DataType.member => "Member"
  | DataType.office => "Office"

/-- `priority_map` (incremental_sync.py lines 197-202). -/
def priorityMap : DataType → Nat
  | DataType.property => 0
  | DataType.media => 1
  | DataType.member => 2
  | DataType.office => 3

/-- `DEFAULT_SELECT_FIELDS` (incremental_sync.py lines 88-107). -/
def defaultSelectFields : DataType → List String
  | DataType.property =>
    ["ListingKey", "ListPrice", "PropertyType", "BedroomsTotal",
     "BathroomsTotalInteger", "LivingArea", "LotSizeAcres", "YearBuilt",
     "StandardStatus", "ModificationTimestamp", "StreetNumber",
     "StreetName", "City", "StateOrProvince", "PostalCode"]
  | DataType.media =>
    ["MediaKey", "ResourceRecordKey", "MediaURL", "MediaType",
     "Order", "ModificationTimestamp"]
  | DataType.member =>
    ["MemberKey", "MemberFirstName", "MemberLastName", "MemberEmail",
     "ModificationTimestamp"]
  | DataType.office =>
    ["OfficeKey", "OfficeName", "OfficePhone", "OfficeEmail",
     "ModificationTimestamp"]

structure BatchRequest where
  dataType : DataType
  filterExpr : String
  selectFields : Option (List String)
  priority : Nat
deriving Repr, DecidableEq

structure IncrementalSyncResult where
  dataType : DataType
  recordsFetched : Nat
  recordsProcessed : Nat
  recordsInserted : Nat
  recordsUpdated : Nat
  apiCallsMade : Nat
  lastModificationTimestamp : Option PyDateTime
  errors : List String
  success : Bool
deriving Repr

structure BatchSyncResult where
  results : List (DataType × IncrementalSyncResult)
  totalApiCalls : Nat
  totalRecordsProcessed : Nat
deriving Repr

/-- Stable ascending insertion for `requests.sort(key=lambda r: r.priority)`. -/
def insertByPriority (r : BatchRequest) : List BatchRequest → List BatchRequest
  | [] => [r]
  | x :: xs => if x.priority ≤ r.priority then x :: insertByPriority r xs else r :: x :: xs

def sortByPriority (l : List BatchRequest) : List BatchRequest :=
  l.foldl (fun acc r => insertByPriority r acc) []

/-- `custom_filters.get(data_type)` when `custom_filters` is given. -/
def customFilterLookup (cf : Option (List (DataType × String))) (dt : DataType) :
    Option String :=
  match cf with
  | none => none
  | some l => (l.find? (fun p => p.1 == dt)).map Prod.snd

/-- `IncrementalSyncManager.create_batch_requests` (incremental_sync.py
lines 176-221). -/
def create_batch_requests (incrementalField : String) (dataTypes : List DataType)
    (lastSyncTimestamp : Option PyDateTime)
    (customFilters : Option (List (DataType × String))) : List BatchRequest :=
  sortByPriority (dataTypes.map (fun dt =>
    { dataType := dt,
      filterExpr := build_incremental_filter incrementalField lastSyncTimestamp
        (customFilterLookup customFilters dt),
      selectFields := some (defaultSelectFields dt),
      priority := priorityMap dt }))

/-- Python `s.replace(pat, rep)` (all, non-overlapping, left to right). -/
def replaceListAux (pat rep : List Char) : Nat → List Char → List Char
  | 0, l => l
  | _ + 1, [] => []
  | fuel + 1, c :: rest =>
    if pat.isPrefixOf (c :: rest) then
      rep ++ replaceListAux pat rep fuel ((c :: rest).drop pat.length)
    else c :: replaceListAux pat rep fuel rest

def pyReplace (s pat rep : String) : String :=
  if pat.toList.isEmpty then s
  else String.mk (replaceListAux pat.toList rep.toList s.toList.length s.toList)

def parse2dig : List Char → Option (Nat × List Char)
  | a :: b :: rest =>
    if a.isDigit && b.isDigit then some ((a.toNat - 48) * 10 + (b.toNat - 48), rest)
    else none
  | _ => none

def expectChar (c : Char) : List Char → Option (List Char)
  | x :: rest => if x = c then some rest else none
  | [] => none

/-- `datetime.fromisoformat` as used at incremental_sync.py line 278:
`YYYY-MM-DD[<sep>HH:MM[:SS[.fff|.ffffff]]][±HH:MM]`; the UTC offset is
validated and dropped (the model keeps naive timestamps). -/
def pyFromIsoformat (s : String) : Option PyDateTime := do
  let l := s.toList
  let (y, l1) ← parseField4 l
  let l2 ← expectChar '-' l1
  let (mo, l3) ← parse2dig l2
  let l4 ← expectChar '-' l3
  let (da, l5) ← parse2dig l4
  if mo < 1 ∨ 12 < mo ∨ da < 1 ∨ daysInMonth y mo < da ∨ y < 1 then none
  else
    match l5 with
    | [] => some ⟨y, mo, da, 0, 0, 0, 0⟩
    | _ :: l6 => do
      let (h, l7) ← parse2dig l6
      let l8 ← expectChar ':' l7
      let (mi, l9) ← parse2dig l8
      let (sec, micro, l10) ←
        (match l9 with
         | ':' :: l9b => do
           let (ss, l10) ← parse2dig l9b
           match l10 with
           | '.' :: l11 =>
             let ds := l11.takeWhile Char.isDigit
             if ds.length = 3 ∨ ds.length = 6 then
               some (ss, digitsToNat ds * 10 ^ (6 - ds.length), l11.drop ds.length)
             else none
           | _ => some (ss, 0, l10)
         | _ => some (0, 0, l9) : Option (Nat × Nat × List Char))
      let lend ←
        (match l10 with
         | [] => some ([] : List Char)
         | c :: l11 =>
           if c = '+' ∨ c = '-' then do
             let (oh, l12) ← parse2dig l11
             let l13 ← expectChar ':' l12
             let (om, l14) ← parse2dig l13
             if oh ≤ 23 ∧ om ≤ 59 ∧ l14 = [] then some ([] : List Char) else none
           else none : Option (List Char))
      if h ≤ 23 ∧ mi ≤ 59 ∧ sec ≤ 59 ∧ lend = [] then
        some ⟨y, mo, da, h, mi, sec, micro⟩
      else none

/-- Lexicographic `datetime` comparison. -/
def pyDateTimeLt (a b : PyDateTime) : Bool :=
  if a.year < b.year then true else if b.year < a.year then false
  else if a.month < b.month then true else if b.month < a.month then false
  else if a.day < b.day then true else if b.day < a.day then false
  else if a.hour < b.hour then true else if b.hour < a.hour then false
  else if a.minute < b.minute then true else if b.minute < a.minute then false
  else if a.second < b.second then true else if b.second < a.second then false
  else decide (a.microsecond < b.microsecond)

def updateMaxTimestamp (cur : Option PyDateTime) (ts : PyDateTime) : Option PyDateTime :=
  match cur with
  | none => some ts
  | some c => if pyDateTimeLt c ts then some ts else some c

/-- One iteration of the timestamp-tracking loop
(incremental_sync.py lines 272-285): falsy values are skipped, string
timestamps are parsed defensively (`Z` replaced by `+00:00`), unparseable
ones are skipped.  Values of other types would raise on comparison in
Python and are outside the model (the API delivers strings). -/
def scanRecordTimestamp (incrementalField : String) (cur : Option PyDateTime)
    (record : List (String × Value)) : Option PyDateTime :=
  match dictLookup record incrementalField with
  | none => cur
  | some v =>
    if pyTruthy v = false then cur
    else
      match v with
      | Value.vStr s =>
        match pyFromIsoformat (pyReplace s "Z" "+00:00") with
        | none => cur
        | some ts => updateMaxTimestamp cur ts
      | Value.vDatetime ts => updateMaxTimestamp cur ts
      | _ => cur

def scanMaxTimestamp (incrementalField : String)
    (records : List (List (String × Value))) : Option PyDateTime :=
  records.foldl (scanRecordTimestamp incrementalField) none

/-- The `filter_expr if filter_expr else None` argument of the fetch
(incremental_sync.py line 263). -/
def syncFilterArg (incrementalField : String) (lastSync : Option PyDateTime)
    (additionalFilter : Option String) : Option String :=
  if build_incremental_filter incrementalField lastSync additionalFilter = "" then none
  else some (build_incremental_filter incrementalField lastSync additionalFilter)

/-- Select-fields defaulting (incremental_sync.py lines 252-253). -/
def syncSelectArg (dt : DataType) (sel : Option (List String)) : Option (List String) :=
  match sel with
  | none => some (defaultSelectFields dt)
  | some fs => some fs

/-- `IncrementalSyncManager.execute_incremental_sync` (incremental_sync.py
lines 223-300), returning the result together with the updated
`self._api_calls_count`.  The counter is incremented exactly once, after a
successful fetch (line 269); a failed fetch is caught, recorded, and
leaves the counter unchanged. -/
def execute_incremental_sync
    (fetch : String → Option String → Option (List String) → Nat →
      Except String (List (List (String × Value))))
    (incrementalField : String) (pageSize : Nat) (dt : DataType)
    (lastSyncTimestamp : Option PyDateTime) (additionalFilter : Option String)
    (selectFields : Option (List String)) (apiCalls : Nat) :
    IncrementalSyncResult × Nat :=
  match fetch (dataTypeValue dt)
      (syncFilterArg incrementalField lastSyncTimestamp additionalFilter)
      (syncSelectArg dt selectFields) pageSize with
  | Except.ok records =>
    ({ dataType := dt,
       recordsFetched := records.length,
       recordsProcessed := records.length,
       recordsInserted := 0,
       recordsUpdated := 0,
       apiCallsMade := apiCalls + 1,
       lastModificationTimestamp := scanMaxTimestamp incrementalField records,
       errors := [],
       success := true }, apiCalls + 1)
  | Except.error e =>
    ({ dataType := dt,
       recordsFetched := 0,
       recordsProcessed := 0,
       recordsInserted := 0,
       recordsUpdated := 0,
       apiCallsMade := 0,
       lastModificationTimestamp := none,
       errors := [e],
       success := false }, apiCalls)

/-- `results[request.data_type] = result` dict assignment. -/
def resultsSet (rs : List (DataType × IncrementalSyncResult)) (k : DataType)
    (v : IncrementalSyncResult) : List (DataType × IncrementalSyncResult) :=
  if rs.any (fun p => p.1 == k) then rs.map (fun p => if p.1 == k then (k, v) else p)
  else rs ++ [(k, v)]

/-- The request loop of `execute_batched_sync` (incremental_sync.py
lines 349-361). -/
def executeBatchedSyncGo
    (fetch : String → Option String → Option (List String) → Nat →
      Except String (List (List (String × Value))))
    (incrementalField : String) (pageSize : Nat) (lastSync : Option PyDateTime)
    (customFilters : Option (List (DataType × String))) :
    List BatchRequest → Nat → List (DataType × IncrementalSyncResult) → Nat →
    List (DataType × IncrementalSyncResult) × Nat × Nat
  | [], apiCalls, results, totalProcessed => (results, apiCalls, totalProcessed)
  | req :: rest, apiCalls, results, totalProcessed =>
    executeBatchedSyncGo fetch incrementalField pageSize lastSync customFilters rest
      (execute_incremental_sync fetch incrementalField pageSize req.dataType
        lastSync (customFilterLookup customFilters req.dataType) req.selectFields apiCalls).2
      (resultsSet results req.dataType
        (execute_incremental_sync fetch incrementalField pageSize req.dataType
          lastSync (customFilterLookup customFilters req.dataType) req.selectFields apiCalls).1)
      (totalProcessed +
        (execute_incremental_sync fetch incrementalField pageSize req.dataType
          lastSync (customFilterLookup customFilters req.dataType) req.selectFields
          apiCalls).1.recordsProcessed)

/-- `IncrementalSyncManager.execute_batched_sync` (incremental_sync.py
lines 302-372): resolve the watermark once, build sorted requests, reset
the API-call counter (line 346), execute sequentially, and report the
final counter as `total_api_calls`. -/
def execute_batched_sync
    (fetch : String → Option String → Option (List String) → Nat →
      Except String (List (List (String × Value))))
    (incrementalField : String) (pageSize : Nat)
    (getLastSyncTimestamp : Option PyDateTime) (dataTypes : List DataType)
    (useIncremental : Bool) (customFilters : Option (List (DataType × String))) :
    BatchSyncResult :=
  { results :=
      (executeBatchedSyncGo fetch incrementalField pageSize
        (if useIncremental then getLastSyncTimestamp else none) customFilters
        (create_batch_requests incrementalField dataTypes
          (if useIncremental then getLastSyncTimestamp else none) customFilters) 0 [] 0).1,
    totalApiCalls :=
      (executeBatchedSyncGo fetch incrementalField pageSize
        (if useIncremental then getLastSyncTimestamp else none) customFilters
        (create_batch_requests incrementalField dataTypes
          (if useIncremental then getLastSyncTimestamp else none) customFilters) 0 [] 0).2.1,
    totalRecordsProcessed :=
      (executeBatchedSyncGo fetch incrementalField pageSize
        (if useIncremental then getLastSyncTimestamp else none) customFilters
        (create_batch_requests incrementalField dataTypes
          (if useIncremental then getLastSyncTimestamp else none) customFilters) 0 [] 0).2.2 }

/-! ## Supporting lemmas -/

theorem listHasInfix_of_isPrefixOf {needle l : List Char} (h : needle.isPrefixOf l = true) :
    listHasInfix needle l = true := by
  cases l with
  | nil =>
    cases needle with
    | nil => rfl
    | cons c cs => simp [List.isPrefixOf] at h
  | cons c rest => simp [listHasInfix, h]

theorem listHasInfix_append_right (a : List Char) {b needle : List Char}
    (h : listHasInfix needle b = true) : listHasInfix needle (a ++ b) = true := by
  induction a with
  | nil => simpa using h
  | cons x xs ih => simp [listHasInfix, ih]

theorem listHasInfix_front {needle b : List Char} (c : List Char)
    (h : needle.isPrefixOf b = true) : listHasInfix needle (b ++ c) = true := by
  apply listHasInfix_of_isPrefixOf
  exact List.isPrefixOf_iff_prefix.mpr ((List.isPrefixOf_iff_prefix.mp h).trans
    (List.prefix_append b c))

theorem listHasInfix_found (a n c : List Char) : listHasInfix n (a ++ (n ++ c)) = true :=
  listHasInfix_append_right a
    (listHasInfix_front c (List.isPrefixOf_iff_prefix.mpr (List.prefix_refl n)))

theorem containsSubstr_of_front (pre rest needle : String)
    (h : needle.toList.isPrefixOf pre.toList = true) :
    containsSubstr (pre ++ rest) needle = true := by
  unfold containsSubstr
  have : (pre ++ rest).toList = pre.toList ++ rest.toList := String.data_append pre rest
  rw [this]
  exact listHasInfix_front rest.toList h

theorem isRateLimitMessage_of_429_response (text : String) :
    isRateLimitMessage ("Rate limit exceeded: " ++ text) = true := by
  unfold isRateLimitMessage
  have h : containsSubstr ("Rate limit exceeded: " ++ text) "Rate limit exceeded" = true := by
    have : ("Rate limit exceeded: " ++ text) = ("Rate limit exceeded: " ++ text) := rfl
    exact containsSubstr_of_front "Rate limit exceeded: " text "Rate limit exceeded" (by decide)
  simp [h]

theorem execute_request_once_429 {α : Type} (url : String) {resp : HttpResponse α}
    (retry401 : HttpResponse α) (h : resp.status = 429) :
    execute_request_once url resp retry401 =
      Except.error ("Rate limit exceeded: " ++ resp.text) := by
  simp [execute_request_once, h]

theorem execute_with_retry_go_all_429 {α : Type}
    (server : Nat → HttpResponse α × HttpResponse α) (url : String) (maxRetries : Nat)
    (h : ∀ k, k ≤ maxRetries → ((server k).1).status = 429)
    (fuel attempt : Nat) (hat : attempt + (fuel + 1) = maxRetries + 1) :
    execute_with_retry_go server url maxRetries attempt (fuel + 1) =
      ⟨Except.error (FetchError.rateLimitError
        ("Rate limit exceeded after " ++ toString maxRetries ++ " retries: " ++
          ("Rate limit exceeded: " ++ ((server maxRetries).1).text))),
       fuel + 1, fuel⟩ := by
  induction fuel generalizing attempt with
  | zero =>
    have ha : attempt = maxRetries := by omega
    subst ha
    rw [execute_with_retry_go,
      execute_request_once_429 url (server attempt).2 (h attempt le_rfl)]
    simp [isRateLimitMessage_of_429_response]
  | succ fuel ih =>
    have hle : attempt ≤ maxRetries := by omega
    have hlt : attempt < maxRetries := by omega
    rw [execute_with_retry_go,
      execute_request_once_429 url (server attempt).2 (h attempt hle)]
    simp only [isRateLimitMessage_of_429_response, if_pos hlt, if_true]
    rw [ih (attempt + 1) (by omega)]

theorem ceilDivInt_spec (a b : Int) (_ha : 0 ≤ a) (hb : 0 < b) :
    a ≤ ceilDivInt a b * b ∧ (ceilDivInt a b - 1) * b < a := by
  unfold ceilDivInt
  rw [Int.fdiv_eq_ediv _ (le_of_lt hb)]
  have hdm := Int.ediv_add_emod (a + b - 1) b
  have hr0 : 0 ≤ (a + b - 1) % b := Int.emod_nonneg _ (ne_of_gt hb)
  have hrb : (a + b - 1) % b < b := Int.emod_lt_of_pos _ hb
  constructor
  · nlinarith [hdm, hr0, hrb]
  · nlinarith [hdm, hr0, hrb]

theorem ceilDivInt_pos (a b : Int) (ha : 0 < a) (hb : 0 < b) :
    0 < ceilDivInt a b := by
  rcases ceilDivInt_spec a b (le_of_lt ha) hb with ⟨h1, _⟩
  by_contra hc
  push_neg at hc
  nlinarith

theorem paginate_while_chain {α : Type} (rest : List (ODataResponse α))
    (cur : ODataResponse α) (acc : List α) (n : Nat) (h : respChain cur rest = true) :
    paginate_while cur rest acc n none = acc ++ (rest.map pageRecords).flatten := by
  induction rest generalizing cur acc n with
  | nil =>
    have hc : cur.nextLink = false := by simpa [respChain] using h
    simp [paginate_while, hc]
  | cons p rest2 ih =>
    have h12 : cur.nextLink = true ∧ respChain p rest2 = true := by
      simpa [respChain] using h
    rw [paginate_while]
    simp only [h12.1, if_true, maxPagesReached]
    rw [ih p (acc ++ pageRecords p) (n + 1) h12.2]
    simp [List.append_assoc]

/-! ### Character-level facts for the normalizer -/

theorem isLower_iff (c : Char) : c.isLower = true ↔ 97 ≤ c.toNat ∧ c.toNat ≤ 122 := by
  simp only [Char.isLower, Bool.and_eq_true, decide_eq_true_eq, ge_iff_le]
  exact Iff.rfl

theorem isUpper_iff (c : Char) : c.isUpper = true ↔ 65 ≤ c.toNat ∧ c.toNat ≤ 90 := by
  simp only [Char.isUpper, Bool.and_eq_true, decide_eq_true_eq, ge_iff_le]
  exact Iff.rfl

theorem isDigit_iff (c : Char) : c.isDigit = true ↔ 48 ≤ c.toNat ∧ c.toNat ≤ 57 := by
  simp only [Char.isDigit, Bool.and_eq_true, decide_eq_true_eq, ge_iff_le]
  exact Iff.rfl

theorem underscore_iff (c : Char) : c = '_' ↔ c.toNat = 95 := by
  constructor
  · rintro rfl; rfl
  · intro h; exact Char.ext (UInt32.ext h)

theorem charOK_iff_toNat (c : Char) : charOK c = true ↔
    (97 ≤ c.toNat ∧ c.toNat ≤ 122) ∨ (48 ≤ c.toNat ∧ c.toNat ≤ 57) ∨ c.toNat = 95 := by
  simp only [charOK, Bool.or_eq_true, beq_iff_eq, isLower_iff, isDigit_iff, underscore_iff,
    or_assoc]

theorem isWordChar_iff_toNat (c : Char) : isWordChar c = true ↔
    (97 ≤ c.toNat ∧ c.toNat ≤ 122) ∨ (65 ≤ c.toNat ∧ c.toNat ≤ 90) ∨
    (48 ≤ c.toNat ∧ c.toNat ≤ 57) ∨ c.toNat = 95 := by
  simp only [isWordChar, Char.isAlphanum, Char.isAlpha, Bool.or_eq_true, beq_iff_eq,
    isLower_iff, isDigit_iff, isUpper_iff, underscore_iff]
  tauto

theorem isAlpha_iff_toNat (c : Char) : c.isAlpha = true ↔
    (97 ≤ c.toNat ∧ c.toNat ≤ 122) ∨ (65 ≤ c.toNat ∧ c.toNat ≤ 90) := by
  simp only [Char.isAlpha, Bool.or_eq_true, isLower_iff, isUpper_iff]
  tauto

theorem toLower_eq_self {c : Char} (h : ¬(65 ≤ c.toNat ∧ c.toNat ≤ 90)) :
    Char.toLower c = c := by
  unfold Char.toLower
  rw [if_neg h]

theorem toLower_toNat_of_upper {c : Char} (h : 65 ≤ c.toNat ∧ c.toNat ≤ 90) :
    (Char.toLower c).toNat = c.toNat + 32 := by
  unfold Char.toLower
  rw [if_pos h]
  have hv : (c.toNat + 32).isValidChar := by
    have hlt : c.toNat + 32 < 55296 := by omega
    exact Or.inl hlt
  unfold Char.ofNat
  rw [dif_pos hv]
  rfl

theorem charOK_replace_toLower (c : Char) :
    charOK (replaceNonWord (Char.toLower c)) = true := by
  by_cases hu : 65 ≤ c.toNat ∧ c.toNat ≤ 90
  · have ht := toLower_toNat_of_upper hu
    have hw : isWordChar (Char.toLower c) = true := (isWordChar_iff_toNat _).mpr (by omega)
    simp only [replaceNonWord, if_pos hw]
    exact (charOK_iff_toNat _).mpr (by omega)
  · rw [toLower_eq_self hu]
    by_cases hw : isWordChar c = true
    · simp only [replaceNonWord, if_pos hw]
      have hb := (isWordChar_iff_toNat c).mp hw
      exact (charOK_iff_toNat c).mpr (by omega)
    · simp only [replaceNonWord, hw, if_false, Bool.false_eq_true]
      decide

theorem charOK_toLower_fix {c : Char} (h : charOK c = true) : Char.toLower c = c := by
  have hb := (charOK_iff_toNat c).mp h
  exact toLower_eq_self (by omega)

theorem charOK_replace_fix {c : Char} (h : charOK c = true) : replaceNonWord c = c := by
  have hb := (charOK_iff_toNat c).mp h
  have hw : isWordChar c = true := (isWordChar_iff_toNat c).mpr (by omega)
  simp [replaceNonWord, hw]

theorem charOK_not_space {c : Char} (h : charOK c = true) : pyIsSpace c = false := by
  have hb := (charOK_iff_toNat c).mp h
  have ne : ∀ d : Char, c.toNat ≠ d.toNat → (c == d) = false := by
    intro d hd
    simp only [beq_eq_false_iff_ne, ne_eq]
    rintro rfl
    exact hd rfl
  have e1 : (' ' : Char).toNat = 32 := rfl
  have e2 : ('\t' : Char).toNat = 9 := rfl
  have e3 : ('\n' : Char).toNat = 10 := rfl
  have e4 : ('\r' : Char).toNat = 13 := rfl
  have e5 : ('\x0b' : Char).toNat = 11 := rfl
  have e6 : ('\x0c' : Char).toNat = 12 := rfl
  simp [pyIsSpace, ne ' ' (by rw [e1]; omega), ne '\t' (by rw [e2]; omega),
    ne '\n' (by rw [e3]; omega), ne '\r' (by rw [e4]; omega),
    ne '\x0b' (by rw [e5]; omega), ne '\x0c' (by rw [e6]; omega)]

theorem charOK_digit_of_not_alpha {c : Char} (hok : charOK c = true)
    (ha : c.isAlpha = false) (hu : c ≠ '_') : c.isDigit = true := by
  have hb := (charOK_iff_toNat c).mp hok
  have ha2 : ¬((97 ≤ c.toNat ∧ c.toNat ≤ 122) ∨ (65 ≤ c.toNat ∧ c.toNat ≤ 90)) := by
    intro hx
    rw [(isAlpha_iff_toNat c).mpr hx] at ha
    exact Bool.true_eq_false.mp ha
  have hu2 : c.toNat ≠ 95 := fun hx => hu ((underscore_iff c).mpr hx)
  exact (isDigit_iff c).mpr (by omega)

/-! ### Collapse and strip facts -/

theorem collapse_cons_head (l : List Char) (c : Char) :
    ∃ t, collapseUnderscores (c :: l) = c :: t := by
  induction l generalizing c with
  | nil => exact ⟨[], rfl⟩
  | cons c2 rest ih =>
    by_cases h : c = '_' ∧ c2 = '_'
    · obtain ⟨h1, h2⟩ := h
      subst h1; subst h2
      obtain ⟨t, ht⟩ := ih '_'
      refine ⟨t, ?_⟩
      have hcond : ('_' : Char) = '_' ∧ ('_' : Char) = '_' := ⟨rfl, rfl⟩
      simp only [collapseUnderscores, if_pos hcond]
      exact ht
    · exact ⟨collapseUnderscores (c2 :: rest), by
        simp only [collapseUnderscores, if_neg h]⟩

theorem collapse_subset (l : List Char) : collapseUnderscores l ⊆ l := by
  induction l with
  | nil => simp [collapseUnderscores]
  | cons c rest ih =>
    cases rest with
    | nil => simp [collapseUnderscores]
    | cons c2 rest2 =>
      by_cases h : c = '_' ∧ c2 = '_'
      · simp only [collapseUnderscores, if_pos h]
        exact fun x hx => List.mem_cons_of_mem c (ih hx)
      · simp only [collapseUnderscores, if_neg h]
        intro x hx
        rcases List.mem_cons.mp hx with h1 | h1
        · exact h1 ▸ List.mem_cons_self c (c2 :: rest2)
        · exact List.mem_cons_of_mem c (ih h1)

theorem noDouble_collapse (l : List Char) : NoDouble (collapseUnderscores l) := by
  induction l with
  | nil => simp [collapseUnderscores, NoDouble]
  | cons c rest ih =>
    cases rest with
    | nil => simp [collapseUnderscores, NoDouble]
    | cons c2 rest2 =>
      by_cases h : c = '_' ∧ c2 = '_'
      · simpa only [collapseUnderscores, if_pos h] using ih
      · obtain ⟨t, ht⟩ := collapse_cons_head rest2 c2
        simp only [collapseUnderscores, if_neg h]
        rw [ht]
        rw [ht] at ih
        exact List.chain'_cons.mpr ⟨h, ih⟩

theorem collapse_fix {l : List Char} (h : NoDouble l) : collapseUnderscores l = l := by
  induction l with
  | nil => rfl
  | cons c rest ih =>
    cases rest with
    | nil => rfl
    | cons c2 rest2 =>
      have h2 := List.chain'_cons.mp h
      simp only [collapseUnderscores, if_neg h2.1]
      rw [ih h2.2]

theorem dropWhile_head_not (p : Char → Bool) (l : List Char) {c : Char} {t : List Char}
    (h : l.dropWhile p = c :: t) : p c = false := by
  have hh := List.head?_dropWhile_not p l
  rw [h] at hh
  simpa using hh

theorem dropWhile_eq_self_of_all (p : Char → Bool) (l : List Char)
    (h : ∀ c ∈ l, p c = false) : l.dropWhile p = l := by
  cases l with
  | nil => rfl
  | cons c t => simp [List.dropWhile_cons, h c (List.mem_cons_self c t)]

theorem notBoth_flip {a b : Char} (h : NotBothUnderscore a b) : NotBothUnderscore b a :=
  fun hx => h ⟨hx.2, hx.1⟩

theorem noDouble_reverse {l : List Char} (h : NoDouble l) : NoDouble l.reverse := by
  apply List.chain'_reverse.mpr
  exact h.imp (fun _ _ hab => notBoth_flip hab)

theorem noDouble_strip {l : List Char} (h : NoDouble l) : NoDouble (stripUnderscores l) := by
  unfold stripUnderscores
  apply noDouble_reverse
  exact (noDouble_reverse (h.suffix (List.dropWhile_suffix _))).suffix
    (List.dropWhile_suffix _)

theorem strip_subset (l : List Char) : stripUnderscores l ⊆ l := by
  intro x hx
  unfold stripUnderscores at hx
  rw [List.mem_reverse] at hx
  have hx2 := (List.dropWhile_sublist (l := (l.dropWhile isUnderscoreChar).reverse)
    isUnderscoreChar).subset hx
  rw [List.mem_reverse] at hx2
  exact (List.dropWhile_sublist isUnderscoreChar).subset hx2

theorem strip_head_ne {l : List Char} {c : Char} {t : List Char}
    (h : stripUnderscores l = c :: t) : c ≠ '_' := by
  unfold stripUnderscores at h
  set d1r := (l.dropWhile isUnderscoreChar).reverse with hd1r
  set d2 := d1r.dropWhile isUnderscoreChar with hd2
  have hlast : d2.getLast? = some c := by
    rw [← List.head?_reverse, h]
    rfl
  obtain ⟨pre, hpre⟩ := List.dropWhile_suffix (l := d1r) isUnderscoreChar
  have hg : d1r.getLast? = some c := by
    rw [← hpre, List.getLast?_append, hlast]
    rfl
  have hh : (l.dropWhile isUnderscoreChar).head? = some c := by
    rw [← List.getLast?_reverse, hg]
  cases he : l.dropWhile isUnderscoreChar with
  | nil => rw [he] at hh; exact absurd hh (by simp)
  | cons c0 t0 =>
    rw [he] at hh
    have hc0 : c0 = c := by simpa using hh
    have := dropWhile_head_not isUnderscoreChar l he
    rw [hc0] at this
    simpa [isUnderscoreChar] using this

theorem strip_getLast_ne {l : List Char} {c : Char}
    (h : (stripUnderscores l).getLast? = some c) : c ≠ '_' := by
  unfold stripUnderscores at h
  rw [List.getLast?_reverse] at h
  cases he : ((l.dropWhile isUnderscoreChar).reverse.dropWhile isUnderscoreChar) with
  | nil => rw [he] at h; exact absurd h (by simp)
  | cons c0 t0 =>
    rw [he] at h
    have hc0 : c0 = c := by simpa using h
    have := dropWhile_head_not isUnderscoreChar _ he
    rw [hc0] at this
    simpa [isUnderscoreChar] using this

theorem strip_fix {l : List Char} (h1 : l.head? ≠ some '_') (h2 : l.getLast? ≠ some '_') :
    stripUnderscores l = l := by
  unfold stripUnderscores
  have e1 : l.dropWhile isUnderscoreChar = l := by
    cases l with
    | nil => rfl
    | cons c t =>
      have hc : c ≠ '_' := fun he => h1 (by rw [he]; simp)
      simp [List.dropWhile_cons, isUnderscoreChar, hc]
  rw [e1]
  have e2 : l.reverse.dropWhile isUnderscoreChar = l.reverse := by
    cases hr : l.reverse with
    | nil => rfl
    | cons c t =>
      have hc : c ≠ '_' := by
        intro he
        apply h2
        rw [← List.head?_reverse, hr, he]
        rfl
      rw [← hr]
      rw [hr]
      simp [List.dropWhile_cons, isUnderscoreChar, hc]
  rw [e2, List.reverse_reverse]

theorem map_eq_self_of_mem {α : Type} (f : α → α) (l : List α) (h : ∀ c ∈ l, f c = c) :
    l.map f = l := by
  induction l with
  | nil => rfl
  | cons c t ih =>
    simp only [List.map_cons, h c (List.mem_cons_self c t),
      ih (fun x hx => h x (List.mem_cons_of_mem c hx))]

theorem normalizeClean_facts (s : String) :
    (∀ c ∈ normalizeClean s, charOK c = true) ∧ NoDouble (normalizeClean s) ∧
    (normalizeClean s).head? ≠ some '_' ∧ (normalizeClean s).getLast? ≠ some '_' := by
  unfold normalizeClean
  set m := (s.toList.map Char.toLower).map replaceNonWord with hm
  have hmOK : ∀ c ∈ m, charOK c = true := by
    intro c hc
    rw [hm, List.map_map] at hc
    obtain ⟨a, _, rfl⟩ := List.mem_map.mp hc
    exact charOK_replace_toLower a
  refine ⟨?_, ?_, ?_, ?_⟩
  · intro c hc
    exact hmOK c (collapse_subset _ (strip_subset _ hc))
  · exact noDouble_strip (noDouble_collapse m)
  · cases hs : stripUnderscores (collapseUnderscores m) with
    | nil => simp
    | cons c t =>
      have hcne := strip_head_ne hs
      simpa using hcne
  · cases hg : (stripUnderscores (collapseUnderscores m)).getLast? with
    | none => simp
    | some c =>
      have hcne := strip_getLast_ne hg
      simpa using hcne

theorem reserved_no_front_field :
    mysqlReservedWords.all (fun w => !("field_".toList.isPrefixOf w.toList)) = true := by
  decide

theorem reserved_no_field_suffix :
    mysqlReservedWords.all (fun w => !("_field".toList.isSuffixOf w.toList)) = true := by
  decide

theorem not_reserved_with_front_field (r : List Char) :
    String.mk ("field_".toList ++ r) ∉ mysqlReservedWords := by
  intro hm
  have hall := List.all_eq_true.mp reserved_no_front_field _ hm
  have hpre : "field_".toList.isPrefixOf ("field_".toList ++ r) = true :=
    List.isPrefixOf_iff_prefix.mpr (List.prefix_append _ _)
  rw [show (String.mk ("field_".toList ++ r)).toList = "field_".toList ++ r from rfl] at hall
  rw [hpre] at hall
  exact absurd hall (by decide)

theorem not_reserved_of_field_suffix (r : List Char) :
    String.mk (r ++ "_field".toList) ∉ mysqlReservedWords := by
  intro hm
  have hall := List.all_eq_true.mp reserved_no_field_suffix _ hm
  have hsuf : "_field".toList.isSuffixOf (r ++ "_field".toList) = true :=
    List.isSuffixOf_iff_suffix.mpr (List.suffix_append _ _)
  rw [show (String.mk (r ++ "_field".toList)).toList = r ++ "_field".toList from rfl] at hall
  rw [hsuf] at hall
  exact absurd hall (by decide)

theorem noDouble_lit_field_pre : NoDouble "field_".toList := by
  show List.Chain' NotBothUnderscore "field_".toList
  rw [show "field_".toList = ['f', 'i', 'e', 'l', 'd', '_'] from rfl]
  simp only [List.chain'_cons, List.chain'_singleton, and_true]
  refine ⟨?_, ?_, ?_, ?_, ?_⟩ <;> decide

theorem noDouble_lit_field_suf : NoDouble "_field".toList := by
  show List.Chain' NotBothUnderscore "_field".toList
  rw [show "_field".toList = ['_', 'f', 'i', 'e', 'l', 'd'] from rfl]
  simp only [List.chain'_cons, List.chain'_singleton, and_true]
  refine ⟨?_, ?_, ?_, ?_, ?_⟩ <;> decide

theorem noDouble_lit_field_unknown : NoDouble "field_unknown".toList := by
  show List.Chain' NotBothUnderscore "field_unknown".toList
  rw [show "field_unknown".toList =
    ['f', 'i', 'e', 'l', 'd', '_', 'u', 'n', 'k', 'n', 'o', 'w', 'n'] from rfl]
  simp only [List.chain'_cons, List.chain'_singleton, and_true]
  refine ⟨?_, ?_, ?_, ?_, ?_, ?_, ?_, ?_, ?_, ?_, ?_, ?_⟩ <;> decide

theorem shape_front_field {r : List Char} (hOK : ∀ c ∈ r, charOK c = true)
    (hND : NoDouble r) (hlast : r.getLast? ≠ some '_')
    {rc : Char} {rt : List Char} (hrc : r = rc :: rt) (hrcne : rc ≠ '_') :
    NormalizedShape ("field_".toList ++ r) := by
  have hOK2 : ∀ c ∈ "field_".toList ++ r, charOK c = true := by
    intro c hc
    rcases List.mem_append.mp hc with hc | hc
    · have hx := List.all_eq_true.mp
        (show ("field_".toList).all charOK = true by decide) _ hc
      simpa using hx
    · exact hOK c hc
  refine ⟨hOK2, ?_, by simp, ?_, ?_, ?_, not_reserved_with_front_field r⟩
  · apply List.chain'_append.mpr
    refine ⟨noDouble_lit_field_pre, hND, ?_⟩
    intro x hx yy hy
    have hx2 : x = '_' := by
      have hxx : ("field_".toList).getLast? = some x := hx
      rw [show ("field_".toList).getLast? = some '_' from rfl] at hxx
      exact (Option.some.inj hxx).symm
    have hy2 : yy = rc := by
      have hyy : r.head? = some yy := hy
      rw [hrc] at hyy
      exact (Option.some.inj hyy).symm
    intro hcon
    exact hrcne (hy2 ▸ hcon.2)
  · rw [show ("field_".toList ++ r).head? = some 'f' from rfl]
    decide
  · rw [List.getLast?_append, hrc]
    obtain ⟨cl, hcl⟩ : ∃ cl, (rc :: rt).getLast? = some cl := by
      cases hgl : (rc :: rt).getLast? with
      | some cl => exact ⟨cl, rfl⟩
      | none => exact absurd hgl (by simp)
    rw [hcl]
    intro hcon
    apply hrc ▸ hlast
    rw [hcl]
    exact (hcon : (some cl).or _ = some '_')
  · rfl

theorem shape_field_suffix {r : List Char} (hOK : ∀ c ∈ r, charOK c = true)
    (hND : NoDouble r) (hhead : r.head? ≠ some '_') (hlast : r.getLast? ≠ some '_')
    {rc : Char} {rt : List Char} (hrc : r = rc :: rt)
    (hpre : fieldPrefixNeeded r = false) :
    NormalizedShape (r ++ "_field".toList) := by
  have hOK2 : ∀ c ∈ r ++ "_field".toList, charOK c = true := by
    intro c hc
    rcases List.mem_append.mp hc with hc | hc
    · exact hOK c hc
    · have hx := List.all_eq_true.mp
        (show ("_field".toList).all charOK = true by decide) _ hc
      simpa using hx
  have hrcne : rc ≠ '_' := by
    intro he
    apply hhead
    rw [hrc, he]
    rfl
  refine ⟨hOK2, ?_, by simp [hrc], ?_, ?_, ?_, not_reserved_of_field_suffix r⟩
  · apply List.chain'_append.mpr
    refine ⟨hND, noDouble_lit_field_suf, ?_⟩
    intro x hx yy hy
    have hx2 : r.getLast? = some x := hx
    have hxne : x ≠ '_' := fun he => hlast (he ▸ hx2)
    intro hcon
    exact hxne hcon.1
  · rw [hrc]
    intro hcon
    exact hrcne (Option.some.inj (hcon : some rc = some '_'))
  · rw [List.getLast?_append]
    intro hcon
    have : ('d' : Char) = '_' :=
      Option.some.inj (hcon : (some 'd').or _ = some '_')
    exact absurd this (by decide)
  · rw [hrc]
    rw [hrc] at hpre
    exact hpre

theorem normalizePreTrunc_shape {s : String} {y : List Char}
    (h : normalizePreTrunc s = some y) : NormalizedShape y := by
  obtain ⟨hOK, hND, hhead, hlast⟩ := normalizeClean_facts s
  unfold normalizePreTrunc at h
  by_cases hempty : pyStrip s = ""
  · rw [if_pos hempty] at h
    exact absurd h (by simp)
  rw [if_neg hempty] at h
  obtain rfl : y = reservedAdjust (emptyAdjust (prefixAdjust (normalizeClean s))) :=
    (Option.some.inj h).symm
  set r := normalizeClean s with hrdef
  by_cases hpre : fieldPrefixNeeded r = true
  · obtain ⟨rc, rt, hrc⟩ : ∃ rc rt, r = rc :: rt := by
      cases hcr : r with
      | nil =>
        rw [hcr] at hpre
        exact absurd hpre (by simp [fieldPrefixNeeded])
      | cons a b => exact ⟨a, b, rfl⟩
    have hrcb : (rc.isAlpha || rc == '_') = false := by
      rw [hrc] at hpre
      simpa [fieldPrefixNeeded] using hpre
    have hrcne : rc ≠ '_' := by
      intro he
      subst he
      simp at hrcb
    have hsh := shape_front_field hOK hND hlast hrc hrcne
    have hpa : prefixAdjust r = "field_".toList ++ r := by
      simp [prefixAdjust, hpre]
    have hne2 : ("field_".toList ++ r).isEmpty = false := by
      rw [hrc]
      rfl
    have hea : emptyAdjust ("field_".toList ++ r) = "field_".toList ++ r := by
      simp [emptyAdjust, hne2]
    have hmap : ("field_".toList ++ r).map Char.toLower = "field_".toList ++ r :=
      map_eq_self_of_mem _ _ (fun c hc => charOK_toLower_fix (hsh.1 c hc))
    have hra : reservedAdjust ("field_".toList ++ r) = "field_".toList ++ r := by
      unfold reservedAdjust
      rw [hmap, if_neg (not_reserved_with_front_field r)]
    rw [hpa, hea, hra]
    exact hsh
  · have hpa : prefixAdjust r = r := by
      simp [prefixAdjust, hpre]
    rw [hpa]
    by_cases hnil : r.isEmpty = true
    · have hrnil : r = [] := by
        cases hcr : r with
        | nil => rfl
        | cons a b => rw [hcr] at hnil; exact absurd hnil (by simp)
      rw [hrnil]
      have hval : reservedAdjust (emptyAdjust ([] : List Char)) = "field_unknown".toList := by
        decide
      rw [hval]
      exact ⟨by decide, noDouble_lit_field_unknown, by decide, by decide, by decide,
        by decide, by decide⟩
    · have hie : r.isEmpty = false := by
        cases hcr : r with
        | nil => rw [hcr] at hnil; exact absurd rfl hnil
        | cons a b => rfl
      have hrne : r ≠ [] := by
        intro he
        rw [he] at hie
        exact absurd hie (by decide)
      obtain ⟨rc, rt, hrc⟩ : ∃ rc rt, r = rc :: rt := by
        cases hcr : r with
        | nil => exact absurd hcr hrne
        | cons a b => exact ⟨a, b, rfl⟩
      have hprefalse : fieldPrefixNeeded r = false := by
        cases hfp : fieldPrefixNeeded r with
        | true => exact absurd hfp hpre
        | false => rfl
      have hea : emptyAdjust r = r := by
        simp [emptyAdjust, hie]
      rw [hea]
      have hmap : r.map Char.toLower = r :=
        map_eq_self_of_mem _ _ (fun c hc => charOK_toLower_fix (hOK c hc))
      by_cases hres : String.mk r ∈ mysqlReservedWords
      · have hra : reservedAdjust r = r ++ "_field".toList := by
          unfold reservedAdjust
          rw [hmap, if_pos hres]
        rw [hra]
        exact shape_field_suffix hOK hND hhead hlast hrc hprefalse
      · have hra : reservedAdjust r = r := by
          unfold reservedAdjust
          rw [hmap, if_neg hres]
        rw [hra]
        exact ⟨hOK, hND, hrne, hhead, hlast, hprefalse, hres⟩

theorem normalize_fix {y : List Char} (hs : NormalizedShape y) (hlen : y.length ≤ 64) :
    normalize_field_name (String.mk y) = some (String.mk y) := by
  obtain ⟨hOK, hND, hne, hhead, hlast, hpre, hres⟩ := hs
  have htl : (String.mk y).toList = y := rfl
  have hnospace : ∀ c ∈ y, pyIsSpace c = false := fun c hc => charOK_not_space (hOK c hc)
  have hd1 : y.dropWhile pyIsSpace = y := dropWhile_eq_self_of_all _ _ hnospace
  have hd2 : y.reverse.dropWhile pyIsSpace = y.reverse :=
    dropWhile_eq_self_of_all _ _ (fun c hc => hnospace c (List.mem_reverse.mp hc))
  have hstrip : pyStrip (String.mk y) = String.mk y := by
    unfold pyStrip
    rw [htl, hd1, hd2, List.reverse_reverse]
  have hnonempty : ¬(pyStrip (String.mk y) = "") := by
    rw [hstrip]
    intro hx
    exact hne (congrArg String.data hx)
  have hlower : y.map Char.toLower = y :=
    map_eq_self_of_mem _ _ (fun c hc => charOK_toLower_fix (hOK c hc))
  have hreplace : y.map replaceNonWord = y :=
    map_eq_self_of_mem _ _ (fun c hc => charOK_replace_fix (hOK c hc))
  have hclean : normalizeClean (String.mk y) = y := by
    unfold normalizeClean
    rw [htl, hlower, hreplace, collapse_fix hND, strip_fix hhead hlast]
  have hpa : prefixAdjust y = y := by
    simp [prefixAdjust, hpre]
  have hye : y.isEmpty = false := by
    cases y with
    | nil => exact absurd rfl hne
    | cons a b => rfl
  have hea : emptyAdjust y = y := by
    simp [emptyAdjust, hye]
  have hra : reservedAdjust y = y := by
    unfold reservedAdjust
    rw [hlower, if_neg hres]
  have hpt : normalizePreTrunc (String.mk y) = some y := by
    unfold normalizePreTrunc
    rw [if_neg hnonempty, hclean, hpa, hea, hra]
  unfold normalize_field_name
  rw [hpt]
  have ht1 : truncateStep1 y = y := by
    unfold truncateStep1
    rw [if_neg (by omega)]
  have ht2 : truncateStep2 y = y := by
    unfold truncateStep2
    rw [if_neg (by omega)]
  simp [ht1, ht2]

theorem transformBatchGo_ok (cy : Nat) (ek : List String) :
    ∀ (recs : List (List (String × Value))) (i : Nat) (seen : List String)
      (accR : List (List (String × Value))) (accE : List String)
      (ft : List (String × Nat)),
      ∃ out : List (List (String × Value)) × List String × List (String × Nat),
        transformBatchGo cy ek true recs i seen accR accE ft = Except.ok out ∧
        out.1.length ≤ accR.length + recs.length := by
  intro recs
  induction recs with
  | nil =>
    intro i seen accR accE ft
    exact ⟨(accR, accE, ft), rfl, by simp⟩
  | cons r rest ih =>
    intro i seen accR accE ft
    cases htr : transform_record cy r ek seen with
    | mk res seen2 =>
      cases res with
      | ok transformed =>
        obtain ⟨out, hout, hlen⟩ := ih (i + 1) seen2 (accR ++ [transformed]) accE
          (trackFieldTransformations ft transformed)
        refine ⟨out, ?_, ?_⟩
        · rw [transformBatchGo, htr]
          exact hout
        · simp only [List.length_append, List.length_cons, List.length_nil] at hlen ⊢
          omega
      | error e =>
        obtain ⟨out, hout, hlen⟩ := ih (i + 1) seen2 accR
          (accE ++ ["Record " ++ toString i ++ ": " ++ terrMsg e]) ft
        refine ⟨out, ?_, ?_⟩
        · rw [transformBatchGo, htr]
          simp only [if_true]
          exact hout
        · simp only [List.length_cons] at hlen ⊢
          omega

theorem execute_incremental_sync_snd
    (fetch : String → Option String → Option (List String) → Nat →
      Except String (List (List (String × Value))))
    (incField : String) (pageSize : Nat) (dt : DataType)
    (lastSync : Option PyDateTime) (af : Option String)
    (sel : Option (List String)) (apiCalls : Nat) :
    (execute_incremental_sync fetch incField pageSize dt lastSync af sel apiCalls).2 =
      apiCalls + (if (fetch (dataTypeValue dt) (syncFilterArg incField lastSync af)
        (syncSelectArg dt sel) pageSize).isOk then 1 else 0) := by
  unfold execute_incremental_sync
  cases hf : fetch (dataTypeValue dt) (syncFilterArg incField lastSync af)
      (syncSelectArg dt sel) pageSize with
  | ok records => simp [Except.isOk, Except.toBool]
  | error e => simp [Except.isOk, Except.toBool]

theorem executeBatchedSyncGo_calls
    (fetch : String → Option String → Option (List String) → Nat →
      Except String (List (List (String × Value))))
    (incField : String) (pageSize : Nat) (lastSync : Option PyDateTime)
    (cf : Option (List (DataType × String))) :
    ∀ (reqs : List BatchRequest) (apiCalls : Nat)
      (results : List (DataType × IncrementalSyncResult)) (total : Nat),
      (executeBatchedSyncGo fetch incField pageSize lastSync cf reqs apiCalls
        results total).2.1 =
        apiCalls + reqs.countP (fun req =>
          (fetch (dataTypeValue req.dataType)
            (syncFilterArg incField lastSync (customFilterLookup cf req.dataType))
            (syncSelectArg req.dataType req.selectFields) pageSize).isOk) := by
  intro reqs
  induction reqs with
  | nil =>
    intro apiCalls results total
    simp [executeBatchedSyncGo]
  | cons req rest ih =>
    intro apiCalls results total
    rw [executeBatchedSyncGo, ih, execute_incremental_sync_snd, List.countP_cons]
    omega

theorem countP_insertByPriority (p : BatchRequest → Bool) (r : BatchRequest) :
    ∀ l : List BatchRequest,
      (insertByPriority r l).countP p = l.countP p + (if p r then 1 else 0) := by
  intro l
  induction l with
  | nil => simp [insertByPriority, List.countP_cons]
  | cons x xs ih =>
    by_cases hle : x.priority ≤ r.priority
    · simp only [insertByPriority, if_pos hle, List.countP_cons, ih]
      omega
    · simp only [insertByPriority, if_neg hle, List.countP_cons]

theorem countP_sortByPriority (p : BatchRequest → Bool) (l : List BatchRequest) :
    (sortByPriority l).countP p = l.countP p := by
  suffices h : ∀ (l2 : List BatchRequest) (acc : List BatchRequest),
      ((l2.foldl (fun a r => insertByPriority r a) acc).countP p) =
        acc.countP p + l2.countP p by
    simpa [sortByPriority] using h l []
  intro l2
  induction l2 with
  | nil => intro acc; simp
  | cons x xs ih =>
    intro acc
    simp only [List.foldl_cons, List.countP_cons]
    rw [ih (insertByPriority x acc), countP_insertByPriority]
    omega

/-! ## Claim theorems -/

/-- C1: the claim requires that every non-429 HTTP error fail after exactly
one attempt with an `ODataError`, for every URL and every error-body
content.  The code instead decides retry eligibility by searching the
strings `"Rate limit exceeded"` and `"429"` inside the error message
(line 370), and the 404 message embeds the URL: a 404 for a URL containing
`"429"` enters the backoff loop, makes `max_retries + 1 = 4` attempts, and
raises `RateLimitError` instead of `ODataError`, contradicting the code's
own comment (line 382) and the repository test
`test_non_rate_limit_errors_do_not_retry`. -/
theorem odata_non429_with_429_in_url_is_retried :
    (execute_with_retry
      (fun _ => ((⟨404, "Not Found", none⟩ : HttpResponse Unit),
                 (⟨404, "Not Found", none⟩ : HttpResponse Unit)))
      "https://api.example.com/Property?$skip=429" 3).attempts = 4 ∧
    (execute_with_retry
      (fun _ => ((⟨404, "Not Found", none⟩ : HttpResponse Unit),
                 (⟨404, "Not Found", none⟩ : HttpResponse Unit)))
      "https://api.example.com/Property?$skip=429" 3).sleeps = 3 ∧
    (execute_with_retry
      (fun _ => ((⟨404, "Not Found", none⟩ : HttpResponse Unit),
                 (⟨404, "Not Found", none⟩ : HttpResponse Unit)))
      "https://api.example.com/Property?$skip=429" 3).outcome =
      Except.error (FetchError.rateLimitError
        ("Rate limit exceeded after 3 retries: " ++
          "Resource not found (404): https://api.example.com/Property?$skip=429")) :=
  ⟨rfl, rfl, rfl⟩

/-- C2: for every well-formed paginated exchange, `execute_paginated_query`
returns the concatenation of every page's `value` array in
page-then-within-page order: its length is the sum of the per-page record
counts, every record of every fetched page appears exactly once per server
occurrence (no de-duplication, no gaps), and a page with a missing `value`
key contributes an empty list rather than raising. -/
theorem odata_paginated_query_concatenates_pages {α : Type} [DecidableEq α]
    (first : ODataResponse α) (rest : List (ODataResponse α))
    (h : respChain first rest = true) :
    execute_paginated_query first rest none = ((first :: rest).map pageRecords).flatten ∧
    (execute_paginated_query first rest none).length =
      ((first :: rest).map (fun p => (pageRecords p).length)).sum ∧
    ∀ a : α, (execute_paginated_query first rest none).count a =
      ((first :: rest).map (fun p => (pageRecords p).count a)).sum := by
  have e : execute_paginated_query first rest none =
      ((first :: rest).map pageRecords).flatten := by
    unfold execute_paginated_query
    rw [paginate_while_chain rest first (pageRecords first) 1 h]
    simp [List.flatten]
  refine ⟨e, ?_, ?_⟩
  · rw [e, List.length_flatten]
    simp only [List.map_map]
    rfl
  · intro a
    rw [e, List.count_flatten]
    simp only [List.map_map]
    rfl

/-- C2 witness: pages of sizes `[2, 0, 1]` (the middle page lacking a
`value` key entirely) concatenate to the three records in order. -/
theorem odata_paginated_query_concatenates_pages_witness :
    execute_paginated_query (⟨some [10, 20], true⟩ : ODataResponse Nat)
      [⟨none, true⟩, ⟨some [30], false⟩] none = [10, 20, 30] :=
  ((odata_paginated_query_concatenates_pages (⟨some [10, 20], true⟩ : ODataResponse Nat)
    [⟨none, true⟩, ⟨some [30], false⟩] (by decide)).1).trans rfl

/-- C3 (counterexample): `normalize_field_name` is not idempotent on inputs
whose normalized form is truncated at the 64-character boundary.  For
63 `a`s followed by `_bbbbbb`, truncation leaves a trailing underscore
(63 `a`s and `_`), and a second pass strips it. -/
theorem transformer_normalize_not_idempotent_on_truncation :
    normalize_field_name (String.mk (List.replicate 63 'a' ++ "_bbbbbb".toList)) =
      some (String.mk (List.replicate 63 'a' ++ ['_'])) ∧
    normalize_field_name (String.mk (List.replicate 63 'a' ++ ['_'])) =
      some (String.mk (List.replicate 63 'a')) ∧
    String.mk (List.replicate 63 'a') ≠ String.mk (List.replicate 63 'a' ++ ['_']) := by
  refine ⟨by decide, by decide, by decide⟩

/-- C3 (amended): `normalize_field_name` is idempotent on every input whose
pre-truncation normalized form fits within 64 characters (no truncation
applied): the output is then a fixed point of the function.  Truncated
outputs need not be fixed points (see the counterexample). -/
theorem transformer_normalize_idempotent_no_truncation (s : String) (y : List Char)
    (h : normalizePreTrunc s = some y) (hlen : y.length ≤ 64) :
    normalize_field_name s = some (String.mk y) ∧
    normalize_field_name (String.mk y) = some (String.mk y) := by
  constructor
  · unfold normalize_field_name
    rw [h]
    have ht1 : truncateStep1 y = y := by
      unfold truncateStep1
      rw [if_neg (by omega)]
    have ht2 : truncateStep2 y = y := by
      unfold truncateStep2
      rw [if_neg (by omega)]
    simp [ht1, ht2]
  · exact normalize_fix (normalizePreTrunc_shape h) hlen

/-- C3 witness: `Listing Key!` normalizes to `listing_key`, which is a
fixed point. -/
theorem transformer_normalize_idempotent_no_truncation_witness :
    normalize_field_name "Listing Key!" = some "listing_key" ∧
    normalize_field_name "listing_key" = some "listing_key" := by
  have h := transformer_normalize_idempotent_no_truncation "Listing Key!"
    "listing_key".toList (by decide) (by decide)
  exact ⟨h.1.trans (by decide), h.2.trans (by decide)⟩

/-- C4: with `continue_on_error = true`, `transform_batch` always returns a
result whose stats satisfy `valid + invalid = total`, whose record list has
length `valid`, and whose `duplicates_detected` counts exactly the
successfully transformed records flagged `_is_duplicate`; the empty batch
yields zero-valued stats and an empty record list. -/
theorem transformer_transform_batch_stats (cy : Nat) (ek : List String)
    (recs : List (List (String × Value))) :
    ∃ bo : BatchOutput,
      transform_batch cy recs ek true = Except.ok bo ∧
      bo.stats.total_records = recs.length ∧
      bo.stats.valid_records + bo.stats.invalid_records = bo.stats.total_records ∧
      bo.records.length = bo.stats.valid_records ∧
      bo.stats.duplicates_detected = bo.records.countP (fun r => isDuplicateFlagged r) ∧
      transform_batch cy [] ek true =
        Except.ok ⟨[], ⟨0, 0, 0, 0, [], []⟩⟩ := by
  obtain ⟨out, hout, hlen⟩ := transformBatchGo_ok cy ek recs 0 [] [] [] []
  obtain ⟨recordsO, errsO, ftO⟩ := out
  simp only [List.length_nil, Nat.zero_add] at hlen
  refine ⟨{ records := recordsO,
            stats :=
              { total_records := recs.length,
                valid_records := recordsO.length,
                invalid_records := recs.length - recordsO.length,
                duplicates_detected := recordsO.countP (fun r => isDuplicateFlagged r),
                field_transformations := ftO,
                validation_errors := errsO } },
    ?_, rfl, ?_, rfl, rfl, rfl⟩
  · unfold transform_batch
    rw [hout]
  · simp only []
    omega

/-- C9: whenever `transform_record` fails (a required-field conversion
failure, required-field validation failure or business-rule violation),
the internal seen-key set is returned unchanged: the failed record's
listing key is never registered, so a later valid record with the same key
is not flagged as a duplicate on account of the failed one. -/
theorem transformer_failed_record_keeps_seen_keys (cy : Nat)
    (apiRecord : List (String × Value)) (ek seen : List String) (e : TError)
    (h : (transform_record cy apiRecord ek seen).1 = Except.error e) :
    (transform_record cy apiRecord ek seen).2 = seen := by
  unfold transform_record at h ⊢
  cases htf : transformFieldsGo [] apiRecord with
  | error e2 => rfl
  | ok transformed =>
    rw [htf] at h
    dsimp only at h ⊢
    by_cases hv : (validate_required_fields cy transformed).isValid = true
    · rw [if_pos hv] at h
      exact absurd h (by simp)
    · rw [if_neg hv]

/-- C9 witness: an empty record fails required-field validation and leaves
the seen-key set `["K1"]` untouched. -/
theorem transformer_failed_record_keeps_seen_keys_witness :
    (transform_record 2026 [] [] ["K1"]).2 = ["K1"] :=
  transformer_failed_record_keeps_seen_keys 2026 [] [] ["K1"]
    (TError.validationError
      ("Record validation failed: Missing required field: listing_key; " ++
        "Missing required field: modification_timestamp"))
    (by decide)

/-- C5: for every server behaviour answering 429 on each attempt and every
configured `max_retries = N`, `_execute_with_retry` makes exactly `N + 1`
request attempts, sleeps a backoff delay between consecutive attempts
(`N` sleeps), and raises `RateLimitError` whose message states `N`. -/
theorem odata_429_exhaustion_attempts {α : Type}
    (server : Nat → HttpResponse α × HttpResponse α) (url : String) (maxRetries : Nat)
    (h : ∀ k, k ≤ maxRetries → ((server k).1).status = 429) :
    (execute_with_retry server url maxRetries).attempts = maxRetries + 1 ∧
    (execute_with_retry server url maxRetries).sleeps = maxRetries ∧
    (execute_with_retry server url maxRetries).outcome =
      Except.error (FetchError.rateLimitError
        ("Rate limit exceeded after " ++ toString maxRetries ++ " retries: " ++
          ("Rate limit exceeded: " ++ ((server maxRetries).1).text))) ∧
    containsSubstr
      ("Rate limit exceeded after " ++ toString maxRetries ++ " retries: " ++
        ("Rate limit exceeded: " ++ ((server maxRetries).1).text))
      (toString maxRetries) = true := by
  have key := execute_with_retry_go_all_429 server url maxRetries h maxRetries 0
    (by omega)
  unfold execute_with_retry
  rw [key]
  refine ⟨rfl, rfl, rfl, ?_⟩
  unfold containsSubstr
  simp only [String.toList, String.data_append, List.append_assoc]
  exact listHasInfix_found _ _ _

/-- C5 witness: three 429 responses with `max_retries = 2` yield exactly
three attempts. -/
theorem odata_429_exhaustion_attempts_witness :
    (execute_with_retry
      (fun _ => ((⟨429, "slow down", none⟩ : HttpResponse Unit),
                 (⟨429, "slow down", none⟩ : HttpResponse Unit)))
      "https://api.example.com/Property" 2).attempts = 3 :=
  (odata_429_exhaustion_attempts
    (fun _ => ((⟨429, "slow down", none⟩ : HttpResponse Unit),
               (⟨429, "slow down", none⟩ : HttpResponse Unit)))
    "https://api.example.com/Property" 2 (fun _ _ => rfl)).1

/-- C6 (counterexample): the claim quantifies over every input value, but
`convert_data_type` returns `None` for a null input before the target-kind
dispatch (line 212-213), so a null value under an unknown target kind does
not raise. -/
theorem transformer_convert_unknown_kind_null_counterexample :
    convert_data_type Value.vNull "florble" "f" = Except.ok Value.vNull := by
  decide

/-- C6 (amended): for every non-null input value and every target kind
outside the five supported kinds, `convert_data_type` raises
`DataTransformationError` whose message names the offending kind. -/
theorem transformer_convert_unknown_kind_errors (v : Value) (t f : String)
    (hv : v ≠ Value.vNull)
    (ht : t ∉ (["string", "integer", "decimal", "datetime", "boolean"] : List String)) :
    convert_data_type v t f =
      Except.error (TError.dataTransformationError ("Unknown target type: " ++ t)) ∧
    containsSubstr ("Unknown target type: " ++ t) t = true := by
  have h1 : ¬(t = "string") := fun he => ht (by rw [he]; simp)
  have h2 : ¬(t = "integer") := fun he => ht (by rw [he]; simp)
  have h3 : ¬(t = "decimal") := fun he => ht (by rw [he]; simp)
  have h4 : ¬(t = "datetime") := fun he => ht (by rw [he]; simp)
  have h5 : ¬(t = "boolean") := fun he => ht (by rw [he]; simp)
  constructor
  · unfold convert_data_type
    rw [if_neg hv, if_neg h1, if_neg h2, if_neg h3, if_neg h4, if_neg h5]
  · unfold containsSubstr
    simp only [String.toList, String.data_append]
    exact listHasInfix_append_right _
      (listHasInfix_of_isPrefixOf (List.isPrefixOf_iff_prefix.mpr (List.prefix_refl _)))

/-- C6 witness: a string value under the unknown kind `florble`. -/
theorem transformer_convert_unknown_kind_errors_witness :
    convert_data_type (Value.vStr "x") "florble" "fld" =
      Except.error (TError.dataTransformationError "Unknown target type: florble") :=
  ((transformer_convert_unknown_kind_errors (Value.vStr "x") "florble" "fld"
    (by decide) (by decide)).1).trans (by decide)

/-- C7: `build_incremental_filter` returns `""` with neither watermark nor
additional filter, exactly `<field> gt <YYYY-MM-DDTHH:MM:SSZ>` with only a
watermark, the two clauses joined by `" and "` with both, and the
additional filter verbatim with only a filter; at the spec's example
timestamp it returns exactly
`ModificationTimestamp gt 2024-01-15T10:30:00Z`. -/
theorem sync_build_incremental_filter_cases (fld : String) (ts : PyDateTime)
    (af : String) (haf : af ≠ "") :
    build_incremental_filter fld none none = "" ∧
    build_incremental_filter fld (some ts) none =
      fld ++ " gt " ++ formatODataTimestamp ts ∧
    build_incremental_filter fld (some ts) (some af) =
      fld ++ " gt " ++ formatODataTimestamp ts ++ " and " ++ af ∧
    build_incremental_filter fld none (some af) = af ∧
    build_incremental_filter "ModificationTimestamp"
      (some ⟨2024, 1, 15, 10, 30, 0, 0⟩) none =
      "ModificationTimestamp gt 2024-01-15T10:30:00Z" := by
  refine ⟨rfl, ?_, ?_, ?_, by decide⟩
  · simp [build_incremental_filter, joinAnd]
  · simp [build_incremental_filter, joinAnd, haf]
  · simp [build_incremental_filter, joinAnd, haf]

/-- C7 witness: both clauses present at the example timestamp. -/
theorem sync_build_incremental_filter_cases_witness :
    build_incremental_filter "ModificationTimestamp"
      (some ⟨2024, 1, 15, 10, 30, 0, 0⟩) (some "StandardStatus eq Active") =
      "ModificationTimestamp gt 2024-01-15T10:30:00Z and StandardStatus eq Active" :=
  ((sync_build_incremental_filter_cases "ModificationTimestamp"
    ⟨2024, 1, 15, 10, 30, 0, 0⟩ "StandardStatus eq Active" (by decide)).2.2.1).trans
    (by decide)

/-- C8: with non-negative `estimated_records` and positive
`max_batch_size`, `calculate_optimal_batch_size` returns 0 exactly on
exhausted quota, returns `max_batch_size` when
`ceil(estimated / max) <= quota`, returns
`min(ceil(estimated / quota), max)` otherwise, and in every non-exhausted
case the result lies in `(0, max]`; the final conjunct certifies that
`ceilDivInt` is the mathematical ceiling of the division. -/
theorem sync_calculate_optimal_batch_size_spec (est quota maxB : Int)
    (hest : 0 ≤ est) (hmax : 0 < maxB) :
    (quota ≤ 0 → calculate_optimal_batch_size est quota maxB = 0) ∧
    (0 < quota → 0 < calculate_optimal_batch_size est quota maxB ∧
      calculate_optimal_batch_size est quota maxB ≤ maxB) ∧
    (0 < quota → ceilDivInt est maxB ≤ quota →
      calculate_optimal_batch_size est quota maxB = maxB) ∧
    (0 < quota → quota < ceilDivInt est maxB →
      calculate_optimal_batch_size est quota maxB =
        min (ceilDivInt est quota) maxB) ∧
    (∀ b : Int, 0 < b → est ≤ ceilDivInt est b * b ∧ (ceilDivInt est b - 1) * b < est) := by
  have hcd : ∀ b : Int, 0 < b → est ≤ ceilDivInt est b * b ∧
      (ceilDivInt est b - 1) * b < est := fun b hb => ceilDivInt_spec est b hest hb
  refine ⟨?_, ?_, ?_, ?_, hcd⟩
  · intro hq
    simp [calculate_optimal_batch_size, hq]
  · intro hq
    have hq2 : ¬(quota ≤ 0) := not_le.mpr hq
    unfold calculate_optimal_batch_size
    rw [if_neg hq2]
    by_cases hp : ceilDivInt est maxB ≤ quota
    · rw [if_pos hp]; exact ⟨hmax, le_refl maxB⟩
    · rw [if_neg hp]
      have hp2 : quota < ceilDivInt est maxB := lt_of_not_le hp
      have hpn2 : 2 ≤ ceilDivInt est maxB := by omega
      have hchar := hcd maxB hmax
      have hest1 : maxB < est := by nlinarith [hchar.2]
      have hopt : 0 < ceilDivInt est quota := ceilDivInt_pos est quota (by omega) hq
      constructor
      · exact lt_min hopt hmax
      · exact min_le_right _ _
  · intro hq hp
    have hq2 : ¬(quota ≤ 0) := not_le.mpr hq
    unfold calculate_optimal_batch_size
    rw [if_neg hq2, if_pos hp]
  · intro hq hp
    have hq2 : ¬(quota ≤ 0) := not_le.mpr hq
    unfold calculate_optimal_batch_size
    rw [if_neg hq2, if_neg (not_le.mpr hp)]

/-- C8 witness: 5000 estimated records against 3 remaining calls and a
1000-record cap need pages of 1667, capped to 1000. -/
theorem sync_calculate_optimal_batch_size_spec_witness :
    calculate_optimal_batch_size 5000 3 1000 = 1000 :=
  (((sync_calculate_optimal_batch_size_spec 5000 3 1000 (by decide)
    (by decide)).2.2.2.1) (by decide) (by decide)).trans (by decide)

/-- C10: for every batched sync, `total_api_calls` equals the number of
data types whose page fetch succeeded: the counter is reset at the start
of the batch, incremented exactly once after each successful fetch, and
not at all for a data type whose fetch raised, regardless of how many HTTP
page requests the underlying client issued. -/
theorem sync_batched_api_calls_count_successful_fetches
    (fetch : String → Option String → Option (List String) → Nat →
      Except String (List (List (String × Value))))
    (incField : String) (pageSize : Nat) (glst : Option PyDateTime)
    (dataTypes : List DataType) (useIncremental : Bool)
    (cf : Option (List (DataType × String))) :
    (execute_batched_sync fetch incField pageSize glst dataTypes useIncremental
        cf).totalApiCalls =
      dataTypes.countP (fun dt =>
        (fetch (dataTypeValue dt)
          (syncFilterArg incField (if useIncremental then glst else none)
            (customFilterLookup cf dt))
          (some (defaultSelectFields dt)) pageSize).isOk) := by
  unfold execute_batched_sync
  rw [executeBatchedSyncGo_calls]
  unfold create_batch_requests
  rw [countP_sortByPriority, List.countP_map]
  simp only [Nat.zero_add, Function.comp]
  congr 1

/-- C10 witness check at a concrete batch: Property and Member fetches
succeed, Media raises; the aggregate reports two API calls. -/
theorem sync_batched_api_calls_count_successful_fetches_witness :
    (execute_batched_sync
      (fun entitySet _ _ _ =>
        if entitySet = "Media" then Except.error "Rate limit exceeded"
        else Except.ok [[("ListingKey", Value.vStr "A")]])
      "ModificationTimestamp" 1000 none
      [DataType.media, DataType.property, DataType.member] false none).totalApiCalls = 2 :=
  (sync_batched_api_calls_count_successful_fetches
    (fun entitySet _ _ _ =>
      if entitySet = "Media" then Except.error "Rate limit exceeded"
      else Except.ok [[("ListingKey", Value.vStr "A")]])
    "ModificationTimestamp" 1000 none
    [DataType.media, DataType.property, DataType.member] false none).trans (by decide)

end TrestleETL
